import Mathlib

/-!
# Message-broker client (`event_sourcing/rabbit`)

A shallow embedding of the RabbitMQ wrapper of the repository: `Client`
(`rabbit_mq.go`), `createQueue`, `NewPublisher`, `NewListener`
(`queue_ops.go`), `Publisher` (`publisher.go`).

The broker client library (`amqp091-go`) is an external collaborator.  It is
represented by an arbitrary oracle `Amqp` that answers every library call from
the history of calls made so far; every call the package makes is appended to
the `trace` of the `World`, so that "no broker operation is invoked" and "the
declared queue" are statements about that trace.
-/

namespace Rabbit

/-! ## Go values -/

/-- Go `error` values seen by the package: the package sentinel
`ErrInvalidConfig`, errors handed back by the broker client library, and
errors with a plain text (`errors.New`, the decoder, a handler). -/
inductive GoError where
  | ErrInvalidConfig
  | amqp (msg : String)
  | errorString (text : String)
  deriving DecidableEq, Repr

/-- The value carried by a Go panic: `panic(err)` or a nil-pointer dereference. -/
inductive PanicValue where
  | err (e : GoError)
  | nilDereference
  deriving DecidableEq, Repr

/-- How a Go call ends: it returns its results or it panics. -/
inductive Outcome (α : Type) where
  | returned (a : α)
  | panicked (v : PanicValue)
  deriving DecidableEq, Repr

/-- Type `config.RabbitMQConfig` (`config/types.go`). -/
structure RabbitMQConfig where
  URL : String
  Username : String
  Password : String
  Host : String
  Port : String
  deriving DecidableEq, Repr

/-! ## `net/url.PathEscape` and `fmt.Sprintf` (Go standard library) -/

/-- Unreserved alphanumerics of `net/url.shouldEscape`. -/
def isAlnum (c : Nat) : Bool :=
  (97 ≤ c && c ≤ 122) || (65 ≤ c && c ≤ 90) || (48 ≤ c && c ≤ 57)

/-- Go `net/url.shouldEscape(c, encodePathSegment)` on the byte `c`. -/
def shouldEscape (c : Nat) : Bool :=
  if isAlnum c then false
  -- '-', '_', '.', '~'
  else if c = 45 || c = 95 || c = 46 || c = 126 then false
  -- '$', '&', '+', ',', '/', ':', ';', '=', '?', '@'
  else if c = 36 || c = 38 || c = 43 || c = 44 || c = 47 || c = 58 || c = 59
      || c = 61 || c = 63 || c = 64 then
    -- encodePathSegment: '/', ';', ',', '?'
    c = 47 || c = 59 || c = 44 || c = 63
  else true

/-- Digit `n` of Go's `upperhex = "0123456789ABCDEF"`. -/
def upperhex (n : Nat) : Char :=
  if n < 10 then Char.ofNat (48 + n) else Char.ofNat (55 + n)

/-- The UTF-8 bytes of a character (a Go string is its byte sequence). -/
def utf8Bytes (c : Char) : List Nat :=
  let n := c.toNat
  if n < 128 then [n]
  else if n < 2048 then [192 + n / 64, 128 + n % 64]
  else if n < 65536 then [224 + n / 4096, 128 + (n / 64) % 64, 128 + n % 64]
  else [240 + n / 262144, 128 + (n / 4096) % 64, 128 + (n / 64) % 64, 128 + n % 64]

/-- One byte of `net/url.escape` in path-segment mode: kept, or `%XX`. -/
def escapeByte (b : Nat) : List Char :=
  if shouldEscape b then [Char.ofNat 37, upperhex (b / 16), upperhex (b % 16)]
  else [Char.ofNat b]

/-- One character of the input: every byte of a non-ASCII character is
escaped, an ASCII character is escaped or kept as `shouldEscape` says. -/
def escapeChar (c : Char) : List Char :=
  if c.toNat < 128 then escapeByte c.toNat
  else (utf8Bytes c).flatMap escapeByte

/-- Go `url.PathEscape`. -/
def PathEscape (s : String) : String :=
  String.mk (s.data.flatMap escapeChar)

/-- Go `fmt.Sprintf` restricted to string operands and the verbs `%s` and
`%%`: operands are substituted verbatim and never rescanned; a verb with no
operand left prints `%!s(MISSING)`.  Other verbs and surplus operands do not
occur in the formats of this package and are not modelled. -/
def sprintfAux : List Char → List String → List Char
  | [], _ => []
  | '%' :: 's' :: rest, a :: args => a.data ++ sprintfAux rest args
  | '%' :: 's' :: rest, [] => "%!s(MISSING)".data ++ sprintfAux rest []
  | '%' :: '%' :: rest, args => '%' :: sprintfAux rest args
  | c :: rest, args => c :: sprintfAux rest args

/-- Go `fmt.Sprintf(format, args...)` for string operands. -/
def Sprintf (format : String) (args : List String) : String :=
  String.mk (sprintfAux format.data args)

/-! ## The broker client library as an oracle -/

/-- Constant `amqp.Persistent` of the broker client library. -/
def Persistent : Nat := 2

/-- Type `amqp.Publishing`, the fields the package sets. -/
structure Publishing where
  DeliveryMode : Nat
  Timestamp : Nat
  ContentType : String
  Body : List Nat
  deriving DecidableEq, Repr

/-- A call of the package into the broker client library.  Connections and
channels (sessions) are named by the handles the library returned. -/
inductive Call where
  | Dial (uri : String)
  | ConnectionClose (conn : Nat)
  | ConnectionChannel (conn : Nat)
  | QueueDeclare (ch : Nat) (name : String) (durable autoDelete exclusive noWait : Bool)
  | NotifyPublish (ch : Nat)
  | Confirm (ch : Nat) (noWait : Bool)
  | ChannelPublish (ch : Nat) (exchange key : String) (mandatory immediate : Bool)
      (msg : Publishing)
  | ChannelClose (ch : Nat)
  | Consume (ch : Nat) (queue consumer : String) (autoAck exclusive noLocal noWait : Bool)
  deriving DecidableEq, Repr

/-- An entry written through the `logger` package. -/
inductive LogEntry where
  | info (msg : String)
  | error (msg : String)
  deriving DecidableEq, Repr

/-- The observable state outside the package: the calls made into the broker
client library so far, and the log. -/
structure World where
  trace : List Call
  log : List LogEntry
  deriving DecidableEq, Repr

/-- The broker client library together with the broker and the clock: each
answer may depend on everything the package has asked so far. -/
structure Amqp where
  Dial : List Call → String → Except GoError Nat
  ConnectionClose : List Call → Nat → Option GoError
  ConnectionChannel : List Call → Nat → Except GoError Nat
  QueueDeclare : List Call → Nat → String → Bool → Bool → Bool → Bool → Option GoError
  Confirm : List Call → Nat → Bool → Option GoError
  ChannelPublish : List Call → Nat → String → String → Bool → Bool → Publishing →
    Option GoError
  ChannelClose : List Call → Nat → Option GoError
  Consume : List Call → Nat → String → String → Bool → Bool → Bool → Bool → Option GoError
  Now : List Call → Nat

/-- Record a library call in the world. -/
def World.call (w : World) (c : Call) : World :=
  { w with trace := w.trace ++ [c] }

/-! ## `rabbit_mq.go` -/

/-- Type `rabbit.Client`: `Connection` is a pointer, `none` is nil. -/
structure Client where
  Connection : Option Nat
  deriving DecidableEq, Repr

/-- The URI of `Client.Connect`, line 27. -/
def connectURI (cfg : RabbitMQConfig) : String :=
  Sprintf "amqps://%s:%s@%s:%s"
    [PathEscape cfg.Username, PathEscape cfg.Password, cfg.Host, PathEscape cfg.Port]

/-- Method `(*Client).Connect`: the returned error, the receiver afterwards and
the world afterwards. -/
def Client.Connect (env : Amqp) (c : Client) (cfg : Option RabbitMQConfig) (w : World) :
    Option GoError × Client × World :=
  match cfg with
  | none => (some GoError.ErrInvalidConfig, c, w)
  | some cfg =>
    let uri := connectURI cfg
    match env.Dial w.trace uri with
    | .error err => (some err, { c with Connection := none }, w.call (.Dial uri))
    | .ok conn => (none, { c with Connection := some conn }, w.call (.Dial uri))

/-- Function `NewClient`. -/
def NewClient (env : Amqp) (cfg : Option RabbitMQConfig) (w : World) :
    (Option Client × Option GoError) × World :=
  let c : Client := { Connection := none }
  match Client.Connect env c cfg w with
  | (some err, _, w') => ((none, some err), w')
  | (none, c', w') => ((some c', none), w')

/-- Method `(*Client).Close`. -/
def Client.Close (env : Amqp) (c : Client) (w : World) : Option GoError × Client × World :=
  match c.Connection with
  | some conn => (env.ConnectionClose w.trace conn, c, w.call (.ConnectionClose conn))
  | none => (none, c, w)

/-! ## `queue_ops.go` and `publisher.go` -/

/-- Method `(*Client).createQueue`.  Calling `Channel` on a nil connection
dereferences nil inside the library. -/
def Client.createQueue (env : Amqp) (c : Client) (topic : String) (w : World) :
    Outcome (Option Nat × Option GoError) × World :=
  match c.Connection with
  | none => (.panicked .nilDereference, w)
  | some conn =>
    let w1 := w.call (.ConnectionChannel conn)
    match env.ConnectionChannel w.trace conn with
    | .error err => (.returned (none, some err), w1)
    | .ok ch =>
      let w2 := w1.call (.QueueDeclare ch topic true false false false)
      match env.QueueDeclare w1.trace ch topic true false false false with
      | some err => (.returned (none, some err), w2)
      | none => (.returned (some ch, none), w2)

/-- Interface `rabbit.TopicI`: a name and a body. -/
structure TopicI where
  GetTopicName : String
  GetBody : List Nat
  deriving DecidableEq, Repr

/-- Type `rabbit.Publisher`. -/
structure Publisher where
  ch : Option Nat
  cl : Client
  deriving DecidableEq, Repr

/-- Type `amqp.Confirmation`, the field the package reads. -/
structure Confirmation where
  Ack : Bool
  deriving DecidableEq, Repr

/-- Function `logger.Info` for a format without verbs. -/
def loggerInfo (msg : String) (w : World) : World :=
  { w with log := w.log ++ [.info (Sprintf msg [])] }

/-- Function `logger.Error(err)` with no extra message, for `errors.New(text)`. -/
def loggerError (text : String) (w : World) : World :=
  { w with log := w.log ++ [.error (Sprintf (Sprintf "%s\n %s" ["", text]) [])] }

/-- The body of the goroutine started by `NewPublisher` (lines 40-48), run
over the confirmations received on `confirms`. -/
def confirmLoop : List Confirmation → World → World
  | [], w => w
  | confirm :: rest, w =>
    if confirm.Ack then confirmLoop rest (loggerInfo "Message published successfully" w)
    else confirmLoop rest (loggerError "failed to publish message" w)

/-- Function `NewPublisher`. -/
def NewPublisher (env : Amqp) (c : Client) (topic : String) (w : World) :
    Outcome (Option Publisher × Option GoError) × World :=
  let p : Publisher := { ch := none, cl := c }
  match p.cl.createQueue env topic w with
  | (.panicked v, w1) => (.panicked v, w1)
  | (.returned (_, some err), w1) => (.panicked (.err err), w1)
  | (.returned (none, none), w1) => (.panicked .nilDereference, w1)
  | (.returned (some ch, none), w1) =>
    let p := { p with ch := some ch }
    let w2 := w1.call (.NotifyPublish ch)
    let w3 := w2.call (.Confirm ch false)
    match env.Confirm w2.trace ch false with
    | some err => (.returned (none, some err), w3)
    | none => (.returned (some p, none), w3)

/-- Method `(*Publisher).Publish`.  On a nil session the library dereferences
nil. -/
def Publisher.Publish (env : Amqp) (p : Publisher) (t : TopicI) (w : World) :
    Outcome (Option GoError) × World :=
  let key := t.GetTopicName
  let msg : Publishing :=
    { DeliveryMode := Persistent
      Timestamp := env.Now w.trace
      ContentType := "text/plain"
      Body := t.GetBody }
  match p.ch with
  | none => (.panicked .nilDereference, w)
  | some ch =>
    (.returned (env.ChannelPublish w.trace ch "" key false false msg),
      w.call (.ChannelPublish ch "" key false false msg))

/-- Method `(*Publisher).Close`. -/
def Publisher.Close (env : Amqp) (p : Publisher) (w : World) :
    Option GoError × Publisher × World :=
  match p.ch with
  | some ch => (env.ChannelClose w.trace ch, p, w.call (.ChannelClose ch))
  | none => (none, p, w)

/-- A Go channel as created by `make(chan struct{})`: its buffer capacity. -/
structure Chan where
  cap : Nat
  deriving DecidableEq, Repr

/-- Type `rabbit.Listener[B]`.  The handler receives the pointer `body`. -/
structure Listener (B : Type) where
  ch : Option Nat
  cl : Client
  topic : String
  actionFn : Option (Option B → Option GoError)
  closer : Chan
  body : Option B

/-- Function `NewListener[B]`. -/
def NewListener (B : Type) (env : Amqp) (c : Client) (topic : String) (w : World) :
    Outcome (Option (Listener B) × Option GoError) × World :=
  let l : Listener B :=
    { ch := none, cl := c, topic := topic, actionFn := none, closer := { cap := 0 },
      body := none }
  match l.cl.createQueue env l.topic w with
  | (.panicked v, w1) => (.panicked v, w1)
  | (.returned (_, some err), w1) => (.panicked (.err err), w1)
  | (.returned (ch, none), w1) => (.returned (some { l with ch := ch }, none), w1)

/-! ## `listener.go` -/

/-- Method `Error()` of an error value.  The text of `ErrInvalidConfig` is
declared outside the sources; it is rendered by its name. -/
def GoError.Error : GoError → String
  | .ErrInvalidConfig => "ErrInvalidConfig"
  | .amqp msg => msg
  | .errorString text => text

/-- Function `logger.Error(err, msg...)`: one error-level entry whose text is
`Sprintf("%s\n %s", strings.Join(msg, "\n"), err.Error())`, passed to `Msgf`
as a format without operands. -/
def loggerErrorMsg (err : GoError) (msg : List String) (w : World) : World :=
  { w with log := w.log ++
      [.error (Sprintf (Sprintf "%s\n %s" [String.intercalate "\n" msg, err.Error]) [])] }

/-- Type `amqp.Delivery`, the field the package reads. -/
structure Delivery where
  Body : List Nat
  deriving DecidableEq, Repr

/-- Method `(*Listener[B]).AssignHandlerFunction`. -/
def Listener.AssignHandlerFunction {B : Type} (l : Listener B)
    (fn : Option (Option B → Option GoError)) : Listener B :=
  { l with actionFn := fn }

/-- Where a call of `ListenAsync` stands once its sequential part is done: it
panicked, or the goroutine is started and the caller is blocked in the receive
from `closer`. -/
inductive ListenProgress where
  | panicked (v : PanicValue)
  | waiting (closer : Chan)
  deriving DecidableEq, Repr

/-- Method `(*Listener[B]).ListenAsync`, lines 31-34 and 51: the consumption
stream is opened and the caller then waits on `l.closer`. -/
def Listener.ListenAsync {B : Type} (env : Amqp) (l : Listener B) (w : World) :
    ListenProgress × World :=
  match l.ch with
  | none => (.panicked .nilDereference, w)
  | some ch =>
    let w1 := w.call (.Consume ch l.topic "" true false false false)
    match env.Consume w.trace ch l.topic "" true false false false with
    | some err => (.panicked (.err err), w1)
    | none => (.waiting l.closer, w1)

/-- What the goroutine of `ListenAsync` did, in order: the decode of a body
with its result, the call of the handler with its argument and result. -/
inductive LoopEvent (B : Type) where
  | decoded (body : List Nat) (err : Option GoError)
  | invoked (arg : Option B) (err : Option GoError)
  deriving DecidableEq, Repr

/-- The state of the goroutine of `ListenAsync`: the Listener it mutates, the
world, and what it did so far. -/
structure LoopState (B : Type) where
  l : Listener B
  w : World
  events : List (LoopEvent B)

/-- One iteration of the loop of `ListenAsync`, lines 38-47.  `unmarshal body
target` stands for `json.Unmarshal(body, &l.body)`: the error and the value of
`l.body` afterwards.  Calling a nil handler panics. -/
def receiveStep {B : Type} (unmarshal : List Nat → Option B → Option GoError × Option B)
    (msg : Delivery) (s : LoopState B) : Outcome (LoopState B) :=
  let r := unmarshal msg.Body s.l.body
  let l1 : Listener B := { s.l with body := r.2 }
  let w1 := match r.1 with
    | some err => loggerErrorMsg err ["Cannot Unmarshal inside Listener"] s.w
    | none => s.w
  match l1.actionFn with
  | none => .panicked .nilDereference
  | some fn =>
    let err := fn l1.body
    let w2 := match err with
      | some e => loggerErrorMsg e ["Cannot Run Action function inside Listener"] w1
      | none => w1
    .returned { l := l1, w := w2,
                events := s.events ++ [.decoded msg.Body r.1, .invoked l1.body err] }

/-- The goroutine of `ListenAsync`, lines 36-49, over the messages the stream
delivers before it ends. -/
def receiveLoop {B : Type} (unmarshal : List Nat → Option B → Option GoError × Option B) :
    List Delivery → LoopState B → Outcome (LoopState B)
  | [], s => .returned s
  | msg :: rest, s =>
    match receiveStep unmarshal msg s with
    | .returned s1 => receiveLoop unmarshal rest s1
    | .panicked v => .panicked v

/-- A blocking operation on a Go channel. -/
inductive ChanOp where
  | send (c : Chan)
  | receive (c : Chan)
  deriving DecidableEq, Repr

/-- Method `(*Listener[B]).Close`: the receiver and the world afterwards, and
the one operation it performs, a send on `l.closer`. -/
def Listener.Close {B : Type} (l : Listener B) (w : World) : Listener B × World × ChanOp :=
  (l, w, .send l.closer)

/-- The part of a loop event that does not depend on the decoder or the
handler: the body for a decode, nothing for a handler call. -/
def LoopEvent.shape {B : Type} : LoopEvent B → Option (List Nat)
  | .decoded body _ => some body
  | .invoked _ _ => none

/-- The event is a call of the handler. -/
def LoopEvent.isInvoked {B : Type} : LoopEvent B → Bool
  | .decoded _ _ => false
  | .invoked _ _ => true

/-- The log entries the loop writes for an event: one error entry for a
failed decode, one for a failed handler call, none otherwise. -/
def LoopEvent.logged {B : Type} : LoopEvent B → List LogEntry
  | .decoded _ (some err) =>
    [.error (Sprintf (Sprintf "%s\n %s" ["Cannot Unmarshal inside Listener", err.Error]) [])]
  | .invoked _ (some err) =>
    [.error (Sprintf (Sprintf "%s\n %s"
      ["Cannot Run Action function inside Listener", err.Error]) [])]
  | _ => []

/-- The log entry of the confirmation task for one confirmation. -/
def confirmEntry (confirm : Confirmation) : LogEntry :=
  if confirm.Ack then .info "Message published successfully"
  else .error "\n failed to publish message"

/-! ## A message type and its JSON coding -/

/-- A message type in the manner of `topics.DeviceUpdateTopic`: string fields
with the JSON names `home_id` and `room_id`, and the field `DeletedAt` of
`BaseModel`, tagged `json:"-"`. -/
structure DeviceUpdate where
  HomeID : String
  RoomID : String
  DeletedAt : Option Nat
  deriving DecidableEq, Repr

/-- The zero value of `DeviceUpdate`. -/
def DeviceUpdate.zero : DeviceUpdate := { HomeID := "", RoomID := "", DeletedAt := none }

/-- The bytes of an ASCII text. -/
def asciiBytes (text : String) : List Nat := text.data.map Char.toNat

/-- Function `json.Marshal` on a `DeviceUpdate` whose strings need no escape:
the members in declaration order, `DeletedAt` left out. -/
def marshalDeviceUpdate (d : DeviceUpdate) : List Nat :=
  asciiBytes ("\x7b\"home_id\":\"" ++ d.HomeID ++ "\",\"room_id\":\"" ++ d.RoomID ++ "\"\x7d")

/-- Position of the scanner in a JSON object whose members are strings. -/
inductive Scan where
  | start
  | first
  | keyQuote
  | inKey (key : List Char)
  | colon (key : List Char)
  | valueQuote (key : List Char)
  | inValue (key value : List Char)
  | next
  | done

/-- Scan a JSON object of string members, written without blanks and
escapes, into its members; `none` is a syntax error. -/
def scanObject : Scan → List (String × String) → List Char → Option (List (String × String))
  | .done, acc, [] => some acc
  | .start, acc, '\x7b' :: rest => scanObject .first acc rest
  | .first, acc, '\x7d' :: rest => scanObject .done acc rest
  | .first, acc, '"' :: rest => scanObject (.inKey []) acc rest
  | .keyQuote, acc, '"' :: rest => scanObject (.inKey []) acc rest
  | .inKey key, acc, '"' :: rest => scanObject (.colon key) acc rest
  | .inKey key, acc, c :: rest => scanObject (.inKey (key ++ [c])) acc rest
  | .colon key, acc, ':' :: rest => scanObject (.valueQuote key) acc rest
  | .valueQuote key, acc, '"' :: rest => scanObject (.inValue key []) acc rest
  | .inValue key value, acc, '"' :: rest =>
    scanObject .next (acc ++ [(String.mk key, String.mk value)]) rest
  | .inValue key value, acc, c :: rest => scanObject (.inValue key (value ++ [c])) acc rest
  | .next, acc, ',' :: rest => scanObject .keyQuote acc rest
  | .next, acc, '\x7d' :: rest => scanObject .done acc rest
  | _, _, _ => none

/-- Store one member into the target: a known name sets its field, another
name is ignored; `DeletedAt` has no name. -/
def setMember (d : DeviceUpdate) (member : String × String) : DeviceUpdate :=
  if member.1 = "home_id" then { d with HomeID := member.2 }
  else if member.1 = "room_id" then { d with RoomID := member.2 }
  else d

/-- Function `json.Unmarshal(body, &target)` for `target` of type
`*DeviceUpdate`, on the objects `scanObject` reads: a syntax error leaves the
target as it is; otherwise a nil target is allocated and the members present
are stored into it, the other fields keeping their values. -/
def unmarshalDeviceUpdate (body : List Nat) (target : Option DeviceUpdate) :
    Option GoError × Option DeviceUpdate :=
  match scanObject .start [] (body.map Char.ofNat) with
  | none => (some (.errorString "invalid character"), target)
  | some members => (none, some (members.foldl setMember (target.getD DeviceUpdate.zero)))

/-! ## The shutdown channel `closer` -/

/-- The calls of `ListenAsync` and `Close` on one Listener, counted by where
they stand, around the channel `closer`: `cap` is the capacity of the channel,
`buffered` the signals held in its buffer. -/
structure CloserState where
  cap : Nat
  buffered : Nat
  listenWaiting : Nat
  listenReturned : Nat
  listenPanicked : Nat
  closeBlocked : Nat
  closeReturned : Nat
  deriving DecidableEq, Repr

/-- What can happen around `closer`: a task calls `ListenAsync` and reaches
the receive (or panics before it), a task calls `Close` and reaches the send,
and the three ways in which the Go runtime completes a channel operation. -/
inductive Action where
  | listenAsync (progress : ListenProgress)
  | close (op : ChanOp)
  | handOff
  | bufferSend
  | bufferReceive
  deriving DecidableEq, Repr

/-- One action, when the Go channel rules allow it: a sender hands its value
to a waiting receiver when the buffer is empty, a sender fills a free buffer
slot, a receiver takes a buffered value. -/
def step : Action → CloserState → Option CloserState
  | .listenAsync (.waiting _), s => some { s with listenWaiting := s.listenWaiting + 1 }
  | .listenAsync (.panicked _), s => some { s with listenPanicked := s.listenPanicked + 1 }
  | .close (.send _), s => some { s with closeBlocked := s.closeBlocked + 1 }
  | .close (.receive _), _ => none
  | .handOff, s =>
    if 0 < s.listenWaiting ∧ 0 < s.closeBlocked ∧ s.buffered = 0 then
      some { s with listenWaiting := s.listenWaiting - 1, listenReturned := s.listenReturned + 1,
                    closeBlocked := s.closeBlocked - 1, closeReturned := s.closeReturned + 1 }
    else none
  | .bufferSend, s =>
    if 0 < s.closeBlocked ∧ s.buffered < s.cap then
      some { s with buffered := s.buffered + 1,
                    closeBlocked := s.closeBlocked - 1, closeReturned := s.closeReturned + 1 }
    else none
  | .bufferReceive, s =>
    if 0 < s.listenWaiting ∧ 0 < s.buffered then
      some { s with buffered := s.buffered - 1,
                    listenWaiting := s.listenWaiting - 1, listenReturned := s.listenReturned + 1 }
    else none

/-- A sequence of actions; `none` when one of them is not allowed. -/
def run : List Action → CloserState → Option CloserState
  | [], s => some s
  | a :: rest, s =>
    match step a s with
    | some s1 => run rest s1
    | none => none

/-- The state around the `closer` of a Listener on which neither `ListenAsync`
nor `Close` was called yet. -/
def CloserState.init {B : Type} (l : Listener B) : CloserState :=
  { cap := l.closer.cap, buffered := 0, listenWaiting := 0, listenReturned := 0,
    listenPanicked := 0, closeBlocked := 0, closeReturned := 0 }

/-- What the Go channel rules keep true around `closer`: the buffer never
exceeds the capacity, and every signal a `Close` delivered was received by a
`ListenAsync` that returned or is still in the buffer. -/
def CloserState.Balanced (s : CloserState) : Prop :=
  s.buffered ≤ s.cap ∧ s.listenReturned + s.buffered = s.closeReturned

/-! ## Reading the trace -/

/-- The queue declarations in a trace: name, durable, auto-delete, exclusive,
no-wait. -/
def declarations : List Call → List (String × Bool × Bool × Bool × Bool)
  | [] => []
  | .QueueDeclare _ name durable autoDelete exclusive noWait :: rest =>
    (name, durable, autoDelete, exclusive, noWait) :: declarations rest
  | _ :: rest => declarations rest

/-- The routing keys of the messages published in a trace. -/
def publishedKeys : List Call → List String
  | [] => []
  | .ChannelPublish _ _ key _ _ _ :: rest => key :: publishedKeys rest
  | _ :: rest => publishedKeys rest

/-! ## The URI as the specification words it -/

/-- The URI with each of username, password, host and port percent-escaped. -/
def allEscapedURI (cfg : RabbitMQConfig) : String :=
  "amqps://" ++ PathEscape cfg.Username ++ ":" ++ PathEscape cfg.Password ++ "@" ++
    PathEscape cfg.Host ++ ":" ++ PathEscape cfg.Port

/-- A required field of the configuration is empty. -/
def missingRequired (cfg : RabbitMQConfig) : Bool :=
  cfg.Username == "" || cfg.Password == "" || cfg.Host == "" || cfg.Port == ""

/-! ## Example brokers and inputs -/

/-- The error the library reports on a closed channel or connection. -/
def ErrClosed : GoError := .amqp "channel/connection is not open"

/-- An example library: every call succeeds while the channel is open, a send
or a close on a channel already closed reports `ErrClosed`; handles are
numbered by the length of the history and so is the clock. -/
def openBroker : Amqp where
  Dial := fun tr _ => .ok (tr.length + 1)
  ConnectionClose := fun tr conn => if Call.ConnectionClose conn ∈ tr then some ErrClosed else none
  ConnectionChannel := fun tr _ => .ok (tr.length + 1)
  QueueDeclare := fun _ _ _ _ _ _ _ => none
  Confirm := fun _ _ _ => none
  ChannelPublish := fun tr ch _ _ _ _ _ =>
    if Call.ChannelClose ch ∈ tr then some ErrClosed else none
  ChannelClose := fun tr ch => if Call.ChannelClose ch ∈ tr then some ErrClosed else none
  Consume := fun tr ch _ _ _ _ _ _ =>
    if Call.ChannelClose ch ∈ tr then some ErrClosed else none
  Now := fun tr => 1700000000 + tr.length

/-- An example library whose connection is gone: no session can be opened. -/
def lostBroker : Amqp :=
  { openBroker with ConnectionChannel := fun _ _ => .error ErrClosed }

/-- An example library that rejects every queue declaration. -/
def rejectingBroker : Amqp :=
  { openBroker with
    QueueDeclare := fun _ _ _ _ _ _ _ => some (.amqp "PRECONDITION_FAILED") }

/-- An example library that cannot switch a session to confirmation mode. -/
def noConfirmBroker : Amqp :=
  { openBroker with Confirm := fun _ _ _ => some (.amqp "NOT_IMPLEMENTED") }

/-- An example library on which the write of a channel close fails. -/
def brokenPipeBroker : Amqp :=
  { openBroker with ChannelClose := fun _ _ => some (.amqp "write: broken pipe") }

/-- The world before anything happened. -/
def World.init : World := { trace := [], log := [] }

/-- A configuration whose host is an IPv6 literal. -/
def ipv6Config : RabbitMQConfig :=
  { URL := "", Username := "guest", Password := "guest", Host := "[::1]", Port := "5671" }

/-- A configuration without a username. -/
def noUserConfig : RabbitMQConfig :=
  { URL := "", Username := "", Password := "secret", Host := "mq.local", Port := "5671" }

/-- A client holding connection 1. -/
def sampleClient : Client := { Connection := some 1 }

/-- The publisher that `NewPublisher` builds on `sampleClient` from the empty
history of `openBroker`: its session is channel 1. -/
def samplePublisher : Publisher := { ch := some 1, cl := sampleClient }

/-- The history after `samplePublisher` was built for the topic `orders`. -/
def sampleWorld : World :=
  { trace := [.ConnectionChannel 1, .QueueDeclare 1 "orders" true false false false,
      .NotifyPublish 1, .Confirm 1 false],
    log := [] }

/-- A topic object that names the queue `audit`. -/
def auditTopic : TopicI := { GetTopicName := "audit", GetBody := [104, 105] }

/-- The Listener that `NewListener` builds on `sampleClient` from the empty
history of `openBroker` for the topic `orders`. -/
def sampleListener : Listener DeviceUpdate :=
  { ch := some 1, cl := sampleClient, topic := "orders", actionFn := none,
    closer := { cap := 0 }, body := none }

/-- A handler that fails on a message without `home_id`. -/
def requireHome (body : Option DeviceUpdate) : Option GoError :=
  match body with
  | none => some (.errorString "no body")
  | some d => if d.HomeID = "" then some (.errorString "no home") else none

/-- A value whose field `DeletedAt` is set. -/
def deletedUpdate : DeviceUpdate := { HomeID := "h1", RoomID := "r1", DeletedAt := some 7 }

/-- Four deliveries: an object without `home_id` and `room_id`, a body that
is not JSON, a full object, and an object that sets `room_id` only. -/
def sampleDeliveries : List Delivery :=
  [⟨asciiBytes "\x7b\"hello\":\"world\"\x7d"⟩,
   ⟨asciiBytes "oops"⟩,
   ⟨marshalDeviceUpdate ⟨"h1", "r1", none⟩⟩,
   ⟨asciiBytes "\x7b\"room_id\":\"r2\"\x7d"⟩]

/-- The goroutine of `sampleListener` with `requireHome` registered, before
the first message. -/
def sampleLoop : LoopState DeviceUpdate :=
  { l := sampleListener.AssignHandlerFunction (some requireHome), w := World.init, events := [] }

end Rabbit

/-! # API errors (`errors/api_errors`) and the request handler (`http_server`) -/

namespace ApiErrors

/-- Type `api_errors.Error`. -/
structure Error where
  StatusCode : Int
  Message : String
  deriving DecidableEq, Repr

/-- Function `NewError`.  The Go function returns a pointer; this is the
value it points to. -/
def NewError (statusCode : Int) (message : String) : Error :=
  { StatusCode := statusCode, Message := message }

/-- Status codes of the `fiber` library. -/
def StatusOK : Int := 200
def StatusBadRequest : Int := 400
def StatusUnauthorized : Int := 401
def StatusForbidden : Int := 403
def StatusNotFound : Int := 404
def StatusConflict : Int := 409
def StatusInternalServerError : Int := 500

/-- The package variables: each is a `*Error`, given here by the value it
points to. -/
def ErrInvalidParams : Error := NewError StatusBadRequest "invalid params"
def ErrNotFound : Error := NewError StatusNotFound "not found"
def ErrUnauthorized : Error := NewError StatusUnauthorized "unauthorized"
def ErrForbidden : Error := NewError StatusForbidden "forbidden"
def ErrConflict : Error := NewError StatusConflict "conflict"
def ErrSomethingWentWrong : Error :=
  NewError StatusInternalServerError "something went wrong"

/-- A non-nil Go `error` value, by its dynamic type: an `api_errors.Error`
value, a pointer `*api_errors.Error` (what `NewError` returns and what the
package variables hold), an error made by `errors.New`, or an error that
wraps another (`fmt.Errorf` with `%w`). -/
inductive GoErr where
  | apiErrorValue (e : Error)
  | apiErrorPointer (e : Error)
  | errorString (text : String)
  | wrapError (text : String) (inner : GoErr)
  deriving DecidableEq, Repr

/-- Go `errors.As(err, &apiError)` for `apiError` of type `api_errors.Error`:
the first error in the chain of `err` whose dynamic type is assignable to
`api_errors.Error`.  A `*api_errors.Error` is not assignable to
`api_errors.Error`, and neither type has an `As` or `Unwrap` method. -/
def GoErr.asApiError : GoErr → Option Error
  | .apiErrorValue e => some e
  | .apiErrorPointer _ => none
  | .errorString _ => none
  | .wrapError _ inner => inner.asApiError

/-- Go `errors.As(err, &apiError)` for an `err` that may be nil: false on
nil. -/
def errorsAs : Option GoErr → Option Error
  | none => none
  | some err => err.asApiError

end ApiErrors

namespace HttpServer

open ApiErrors

/-- A Go value of type `any` as a handler returns it: nil, a slice or array
with its items, or a value of another kind. -/
inductive AnyValue where
  | null
  | slice (items : List Nat)
  | other (v : Nat)
  deriving DecidableEq, Repr

/-- What the handler returns as data: a plain value or a
`ResponseDataWithCustomStatus`. -/
inductive HandlerData where
  | plain (data : AnyValue)
  | withStatus (statusCode : Int) (data : AnyValue)
  deriving DecidableEq, Repr

/-- Type `Pagination`. -/
structure Pagination where
  Limit : Int
  Offset : Int
  deriving DecidableEq, Repr

/-- Type `ResponseData`. -/
structure ResponseData where
  Data : AnyValue
  HasNext : Bool
  Message : String
  Duration : Int
  Hostname : String
  deriving DecidableEq, Repr

/-- What the calls of the handler into `fiber`, `common`, `utils` and the
clock give for one request: whether the project id is unknown, the error of
`CheckAccess`, whether each parser fails, how many validation errors each
part has, the values of `QueryInt` for `page` and `per_page`, the clock at the
start and when the response is written, and the host name. -/
structure Request where
  projectUnknown : Bool
  accessErr : Option Error
  queryParserFails : Bool
  queryErrors : Nat
  paramsParserFails : Bool
  paramsErrors : Nat
  bodyParserFails : Bool
  bodyErrors : Nat
  page : Int
  perPage : Int
  start : Int
  now : Int
  hostname : String
  deriving DecidableEq, Repr

/-- Type `RequestHandlerBuilder`: the handler is given the request and the
pagination it is passed. -/
structure RequestHandlerBuilder where
  Handler : Request → Option Pagination → HandlerData × Option GoErr
  HasParams : Bool
  HasQuery : Bool
  HasBody : Bool
  ProjectIdRequired : Bool
  IsPaginated : Bool

/-- How the function returned by `Build` ends: it writes a response with a
status code, or it panics. -/
inductive Result where
  | response (statusCode : Int) (body : ResponseData)
  | panic (text : String)
  deriving DecidableEq, Repr

/-- Go `int` arithmetic wraps around at 64 bits. -/
def wrap64 (x : Int) : Int :=
  (x + 9223372036854775808) % 18446744073709551616 - 9223372036854775808

/-- The response written for an API error `e`, lines 218-220 and alike. -/
def errorResponse (req : Request) (e : Error) : Result :=
  .response e.StatusCode
    { Data := .null, HasNext := false, Message := e.Message,
      Duration := req.now - req.start, Hostname := req.hostname }

/-- Lines 321-338: the paginated or plain response for the data `data`.
`reflect.TypeOf(nil).Kind()` dereferences nil, and `result.Slice(0, -1)` on an
empty slice is out of bounds. -/
def dataResponse (r : RequestHandlerBuilder) (req : Request) (pagination : Option Pagination)
    (statusCode : Int) (data : AnyValue) : Result :=
  let response : ResponseData :=
    { Data := data, HasNext := false, Message := "ok", Duration := req.now - req.start,
      Hostname := req.hostname }
  if r.IsPaginated then
    match data, pagination with
    | .null, _ => .panic "invalid memory address or nil pointer dereference"
    | .other _, _ => .panic "Paginated response must be an array or slice"
    | .slice _, none => .panic "invalid memory address or nil pointer dereference"
    | .slice items, some pg =>
      if (items.length : Int) = pg.Limit then
        if items.length = 0 then .panic "reflect.Value.Slice: slice index out of bounds"
        else
          .response statusCode
            { response with HasNext := true, Data := .slice (items.take (items.length - 1)) }
      else .response statusCode { response with HasNext := false, Data := .slice items }
  else .response statusCode response

/-- The function returned by `RequestHandlerBuilder.Build`, lines 205-339. -/
def Build (r : RequestHandlerBuilder) (req : Request) : Result :=
  if r.ProjectIdRequired && req.projectUnknown then errorResponse req ErrInvalidParams
  else
    match req.accessErr with
    | some accessErr => errorResponse req accessErr
    | none =>
      if r.HasQuery && req.queryParserFails then errorResponse req ErrInvalidParams
      else if r.HasParams && req.paramsParserFails then errorResponse req ErrInvalidParams
      else if r.HasBody && req.bodyParserFails then errorResponse req ErrInvalidParams
      else if 0 < (if r.HasQuery then req.queryErrors else 0) +
          (if r.HasParams then req.paramsErrors else 0) +
          (if r.HasBody then req.bodyErrors else 0) then
        errorResponse req ErrInvalidParams
      else
        let perPage := if req.perPage > 50 then 50 else req.perPage
        let pagination : Option Pagination :=
          if r.IsPaginated then
            some { Limit := wrap64 (perPage + 1),
                   Offset := wrap64 (wrap64 (req.page - 1) * perPage) }
          else none
        let (rData, err) := r.Handler req pagination
        match errorsAs err, err with
        | some apiError, _ => errorResponse req apiError
        | none, some _ => errorResponse req ErrSomethingWentWrong
        | none, none =>
          match rData with
          | .withStatus statusCode data => dataResponse r req pagination statusCode data
          | .plain data => dataResponse r req pagination StatusOK data

/-- A request on which every check before the handler passes. -/
def plainRequest : Request :=
  { projectUnknown := false, accessErr := none, queryParserFails := false, queryErrors := 0,
    paramsParserFails := false, paramsErrors := 0, bodyParserFails := false, bodyErrors := 0,
    page := 1, perPage := 10, start := 1000, now := 1003, hostname := "api.local" }

/-- A paginated builder whose handler reads a table of `rows` rows: it returns
the rows from `Offset` on, at most `Limit` of them (none for a limit or offset
below zero). -/
def pagedBuilder (rows : Nat) : RequestHandlerBuilder :=
  { Handler := fun _ pagination =>
      match pagination with
      | some pg =>
        (.plain (.slice (((List.range rows).drop pg.Offset.toNat).take pg.Limit.toNat)), none)
      | none => (.plain (.slice (List.range rows)), none)
    HasParams := false, HasQuery := false, HasBody := false, ProjectIdRequired := false,
    IsPaginated := true }

/-- A builder whose handler fails with the error `err`. -/
def failingBuilder (err : GoErr) : RequestHandlerBuilder :=
  { Handler := fun _ _ => (.plain .null, some err),
    HasParams := false, HasQuery := false, HasBody := false, ProjectIdRequired := false,
    IsPaginated := false }

end HttpServer

/-! # EC2 builder (`aws/ec2.go`) -/

namespace Aws

/-- Type `ec2.RunInstancesInput` of the AWS SDK, the field `AddAMI` sets. -/
structure RunInstancesInput where
  ImageId : Option String
  deriving DecidableEq, Repr

/-- Type `EC2`: the SDK client by a handle, and the listener flag. -/
structure EC2 where
  listen : Bool
  ec2Svc : Nat
  deriving DecidableEq, Repr

/-- Type `EC2Builder`; `data` and `ec2Builder` are pointers, `none` is nil. -/
structure EC2Builder where
  data : Option RunInstancesInput
  isNetworkSet : Bool
  ec2Builder : Option EC2
  deriving DecidableEq, Repr

/-- The value of a panic: the `*errors.Error` of `errors.NewError`, or a
nil-pointer dereference. -/
inductive PanicValue where
  | error (statusCode : Int) (message : String)
  | nilDereference
  deriving DecidableEq, Repr

/-- Method `(*EC2).NewInstance`: only `ec2Builder` is set. -/
def EC2.NewInstance (s : EC2) : EC2Builder :=
  { data := none, isNetworkSet := false, ec2Builder := some s }

/-- Method `(*EC2Builder).AddAMI`: the builder afterwards, or the panic. -/
def EC2Builder.AddAMI (e : EC2Builder) (imageId : String) : Except PanicValue EC2Builder :=
  if imageId = "" then .error (.error 404 "image id cannot be empty")
  else
    match e.data with
    | none => .error .nilDereference
    | some data => .ok { e with data := some { data with ImageId := some imageId } }

end Aws

/-! # In-flight limit (`grpc/grpc.go`) -/

namespace Grpc

/-- What one unary call brings: the value of `ctx.Value("userID")` when it is
a string, the error of the Redis `Incr` and `Decr` if they fail (the counter
is then left as it is), and what the handler returns. -/
structure UnaryCall where
  userID : Option String
  incrErr : Option String
  handler : Except String Nat
  decrErr : Option String
  deriving Repr

/-- What the interceptor gives back: a response, an error, or a panic of the
type assertion on the user id. -/
inductive Reply where
  | response (resp : Nat)
  | error (text : String)
  | panic
  deriving DecidableEq, Repr

/-- The function returned by `unaryServerInterceptor(r, maxMessages)`, on the
Redis counters `counts`: the reply and the counters afterwards. -/
def unaryServerInterceptor (maxMessages : Int) (call : UnaryCall) (counts : String → Int) :
    Reply × (String → Int) :=
  match call.userID with
  | none => (.panic, counts)
  | some userID =>
    match call.incrErr with
    | some err => (.error err, counts)
    | none =>
      let counts1 := fun key => if key = userID then counts key + 1 else counts key
      let userInflightCount := counts1 userID
      if userInflightCount > maxMessages then
        (.error "Max inflight messages reached", counts1)
      else
        match call.handler with
        | .error err => (.error err, counts1)
        | .ok resp =>
          match call.decrErr with
          | some err => (.error err, counts1)
          | none => (.response resp, fun key => if key = userID then counts1 key - 1 else counts1 key)

/-- A call of user `u` whose handler fails. -/
def failingCall : UnaryCall :=
  { userID := some "u", incrErr := none, handler := .error "boom", decrErr := none }

/-- A call of user `u` whose handler succeeds. -/
def goodCall : UnaryCall :=
  { userID := some "u", incrErr := none, handler := .ok 7, decrErr := none }

/-- Redis with no counter set. -/
def noCounts : String → Int := fun _ => 0

end Grpc

/-! # Unix timestamps (`datatypes/unix_timestamp.go`) -/

namespace Datatypes

/-- A `time.Time` instant: seconds since the Unix epoch and nanoseconds
within the second. -/
structure Time where
  sec : Int
  nsec : Int
  deriving DecidableEq, Repr

/-- Go `time.Unix(sec, nsec)`: `nsec` outside `[0, 999999999]` is carried
into the seconds. -/
def Unix (sec nsec : Int) : Time :=
  { sec := sec + nsec / 1000000000, nsec := nsec % 1000000000 }

/-- Method `Time.IsZero`: the instant is January 1, year 1, 00:00:00 UTC. -/
def Time.IsZero (t : Time) : Bool := t.sec = -62135596800 && t.nsec = 0

/-- Go `int64` arithmetic wraps around. -/
def wrap64 (x : Int) : Int :=
  (x + 9223372036854775808) % 18446744073709551616 - 9223372036854775808

/-- Method `Time.UnixNano`. -/
def Time.UnixNano (t : Time) : Int := wrap64 (t.sec * 1000000000 + t.nsec)

/-- Method `(*UnixTimestampMillis).Scan` for a `value` that is nil or an
`int64`: the receiver afterwards. -/
def UnixTimestampMillis.Scan (u : Time) (value : Option Int) : Time :=
  match value with
  | none => u
  | some v => Unix (Int.tdiv v 1000) 0

/-- Method `UnixTimestampMillis.Value`: nil for the zero time. -/
def UnixTimestampMillis.Value (u : Time) : Option Int :=
  if u.IsZero then none else some (Int.tdiv u.UnixNano 1000000)

/-- Method `(*UnixTimestampNanos).Scan` for a `value` that is nil or an
`int64`: the receiver afterwards. -/
def UnixTimestampNanos.Scan (u : Time) (value : Option Int) : Time :=
  match value with
  | none => u
  | some v => Unix (Int.tdiv v 1000) 0

/-- Method `UnixTimestampNanos.Value`: nil for the zero time. -/
def UnixTimestampNanos.Value (u : Time) : Option Int :=
  if u.IsZero then none else some u.UnixNano

/-- The instant truncated to whole milliseconds. -/
def Time.truncateMillis (t : Time) : Time :=
  { t with nsec := t.nsec / 1000000 * 1000000 }

end Datatypes

/-! # Bounded wait group (`boundedwg/bounded_waitgroup.go`) -/

namespace Boundedwg

/-- Type `boundedWaitGroup`: the capacity of `semaphore` (`limit`), the
number of values it holds (`held`), and the counter of `wg`. -/
structure BoundedWaitGroup where
  limit : Nat
  held : Nat
  counter : Int
  deriving DecidableEq, Repr

/-- How a call ends when no other goroutine runs: it returns, it panics, or
it blocks on the semaphore. -/
inductive CallResult where
  | returned (b : BoundedWaitGroup)
  | panicked (text : String)
  | blocked (b : BoundedWaitGroup)
  deriving DecidableEq, Repr

/-- Function `New`: the panic text for `limit <= 0`. -/
def New (limit : Int) : Except String BoundedWaitGroup :=
  if limit ≤ 0 then .error "BoundedWaitGroup go routine limit must be greater than 0"
  else .ok { limit := limit.toNat, held := 0, counter := 0 }

/-- Go `sync.WaitGroup.Add`: it panics when the counter would go negative. -/
def wgAdd (delta : Int) (b : BoundedWaitGroup) : CallResult :=
  if b.counter + delta < 0 then .panicked "sync: negative WaitGroup counter"
  else .returned { b with counter := b.counter + delta }

/-- The loop of `Add`, lines 112-114, with `n` sends to go: `.error` when a
send blocks on the full semaphore. -/
def sendLoop : Nat → BoundedWaitGroup → Except BoundedWaitGroup BoundedWaitGroup
  | 0, b => .ok b
  | n + 1, b =>
    if b.held < b.limit then sendLoop n { b with held := b.held + 1 } else .error b

/-- Method `Add`. -/
def Add (delta : Int) (b : BoundedWaitGroup) : CallResult :=
  match sendLoop delta.toNat b with
  | .ok b1 => wgAdd delta b1
  | .error b1 => .blocked b1

/-- Method `Done`. -/
def Done (b : BoundedWaitGroup) : CallResult :=
  if b.held = 0 then .blocked b else wgAdd (-1) { b with held := b.held - 1 }

/-- Goroutines calling `Add(1)` and `Done` on one wait group: the calls that
passed their semaphore operation and have not yet reached `wg.Add` or
`wg.Done`, and the calls that returned. -/
structure Sys where
  b : BoundedWaitGroup
  addsMid : Nat
  donesMid : Nat
  addsDone : Nat
  donesDone : Nat
  panicked : Bool
  deriving DecidableEq, Repr

/-- The statements of `Add(1)` and `Done`, each run by some goroutine. -/
inductive Step where
  | addSend
  | addFinish
  | doneReceive
  | doneFinish
  deriving DecidableEq, Repr

/-- One statement, when it can run: a send needs a free slot, a receive a
held one; after a panic nothing runs. -/
def step : Step → Sys → Option Sys
  | .addSend, s =>
    if s.panicked = false ∧ s.b.held < s.b.limit then
      some { s with b := { s.b with held := s.b.held + 1 }, addsMid := s.addsMid + 1 }
    else none
  | .addFinish, s =>
    if s.panicked = false ∧ 0 < s.addsMid then
      match wgAdd 1 s.b with
      | .returned b1 =>
        some { s with b := b1, addsMid := s.addsMid - 1, addsDone := s.addsDone + 1 }
      | _ => some { s with panicked := true }
    else none
  | .doneReceive, s =>
    if s.panicked = false ∧ 0 < s.b.held then
      some { s with b := { s.b with held := s.b.held - 1 }, donesMid := s.donesMid + 1 }
    else none
  | .doneFinish, s =>
    if s.panicked = false ∧ 0 < s.donesMid then
      match wgAdd (-1) s.b with
      | .returned b1 =>
        some { s with b := b1, donesMid := s.donesMid - 1, donesDone := s.donesDone + 1 }
      | _ => some { s with panicked := true }
    else none

/-- A sequence of statements; `none` when one of them cannot run. -/
def run : List Step → Sys → Option Sys
  | [], s => some s
  | a :: rest, s =>
    match step a s with
    | some s1 => run rest s1
    | none => none

/-- The system before any call on the wait group `b`. -/
def Sys.init (b : BoundedWaitGroup) : Sys :=
  { b := b, addsMid := 0, donesMid := 0, addsDone := 0, donesDone := 0, panicked := false }

/-- What every statement keeps true: the slots held are within the limit and
are the sends minus the receives, and the counter is the completed `Add(1)`
calls minus the completed `Done` calls. -/
def Sys.Consistent (s : Sys) : Prop :=
  s.b.held ≤ s.b.limit ∧
  s.addsDone + s.addsMid = s.b.held + s.donesDone + s.donesMid ∧
  s.b.counter = (s.addsDone : Int) - (s.donesDone : Int)

end Boundedwg

/-! # Access levels and text-search queries (`common`) -/

namespace Common

open ApiErrors

/-- Go `strings.Split(s, sep)` for a one-character separator, with the piece
read so far. -/
def split (sep : Char) : List Char → List Char → List (List Char)
  | [], cur => [cur]
  | c :: rest, cur => if c = sep then cur :: split sep rest [] else split sep rest (cur ++ [c])

/-- Lower-casing of ASCII letters, the part of `unicode.ToLower` that the
examples use. -/
def asciiLower (c : Char) : Char :=
  if 65 ≤ c.toNat ∧ c.toNat ≤ 90 then Char.ofNat (c.toNat + 32) else c

/-! ## `access_levels.go` -/

/-- The constants of type `AccessLevel` (a byte). -/
def AccessLevelPublic : Nat := 0
def AccessLevelUser : Nat := 1
def AccessLevelService : Nat := 2
def AccessLevelAdmin : Nat := 3
def AccessLevelSearch : Nat := 4

/-- A JSON value, as the payload of a token carries it. -/
inductive JSON where
  | null
  | bool (b : Bool)
  | number (n : Int)
  | string (s : String)
  | array (items : List JSON)
  | object (members : List (String × JSON))

/-- A Go value of type `any` by its dynamic type, for the types the package
asserts: nil, `bool`, `float64`, `string`, `[]any`, `map[string]any` and
`map[string]bool`. -/
inductive GoValue where
  | nil
  | bool (b : Bool)
  | float64 (n : Int)
  | string (s : String)
  | sliceAny (items : List JSON)
  | mapStringAny (members : List (String × JSON))
  | mapStringBool (members : List (String × Bool))

/-- How `encoding/json` stores a JSON value in a Go `any`, as it does for the
claims of `jwt.MapClaims`: an object becomes a `map[string]any`. -/
def ofJSON : JSON → GoValue
  | .null => .nil
  | .bool b => .bool b
  | .number n => .float64 n
  | .string s => .string s
  | .array items => .sliceAny items
  | .object members => .mapStringAny members

/-- The type assertion `v.(map[string]bool)`; an absent claim is nil. -/
def asMapStringBool : Option GoValue → Option (List (String × Bool))
  | some (.mapStringBool members) => some members
  | _ => none

/-- The type assertion `v.(string)`. -/
def asString : Option GoValue → Option String
  | some (.string s) => some s
  | _ => none

/-- The type assertion `v.([]any)`. -/
def asSliceAny : Option GoValue → Option (List JSON)
  | some (.sliceAny items) => some items
  | _ => none

/-- The strings of a `[]any`, or `none` when an element is not a string (the
assertion `v.(string)` of line 133 then panics). -/
def stringItems : List JSON → Option (List String)
  | [] => some []
  | .string s :: rest => (stringItems rest).map (fun items => s :: items)
  | _ :: _ => none

/-- A parsed token: whether its signing method is HMAC, the secret under
which its signature verifies, its claims, and whether the registered claims
(expiry and the like) are in order. -/
structure Token where
  hmac : Bool
  key : String
  claims : List (String × JSON)
  claimsValid : Bool

/-- What lies outside the package: the decoding of a token string by the
`jwt` library, `uuid.Parse`, and `unicode.ToLower`. -/
structure Env where
  decode : String → Option Token
  uuidParse : String → Option String
  lower : Char → Char

/-- The secrets of package `config`. -/
structure Secrets where
  AdminSecret : String
  UserSecret : String
  ServiceSecret : String

/-- What `CheckAccess` returns (the access id, the permissions, the error),
or a panic. -/
inductive AccessResult where
  | returned (accessId : Option String) (permissions : Option (List String))
      (err : Option Error)
  | panic
  deriving DecidableEq, Repr

/-- Lines 92-108: `jwt.Parse` with the key function of the package, then the
checks of the claims type and of `token.Valid`: the claims, or `none` when
any of it fails. -/
def parseClaims (env : Env) (cfg : Secrets) (tokenStr : String) (accessLevel : Nat) :
    Option (List (String × JSON)) :=
  match env.decode tokenStr with
  | none => none
  | some token =>
    if token.hmac = false then none
    else
      let secret := if accessLevel = AccessLevelAdmin then cfg.AdminSecret else cfg.UserSecret
      if token.key = secret ∧ token.claimsValid = true then some token.claims else none

/-- The claim `name` of the claims map: the last member of that name. -/
def claim (claims : List (String × JSON)) (name : String) : Option GoValue :=
  (claims.reverse.lookup name).map ofJSON

/-- Function `checkUserAndAdminAccess`. -/
def checkUserAndAdminAccess (env : Env) (cfg : Secrets) (tokenStr : String)
    (accessLevel : Nat) : AccessResult :=
  match parseClaims env cfg tokenStr accessLevel with
  | none => .returned none none (some ErrUnauthorized)
  | some claims =>
    if accessLevel = AccessLevelSearch then
      match asMapStringBool (claim claims "access") with
      | none => .returned none none (some ErrUnauthorized)
      | some access =>
        match access.lookup "search" with
        | some true => .returned none none none
        | _ => .returned none none (some ErrUnauthorized)
    else
      match asString (claim claims "id") with
      | none => .returned none none (some ErrUnauthorized)
      | some id =>
        match env.uuidParse id with
        | none => .returned none none (some ErrUnauthorized)
        | some accessId =>
          match asSliceAny (claim claims "permissions") with
          | none => .returned (some accessId) (some []) none
          | some items =>
            match stringItems items with
            | some permissions => .returned (some accessId) (some permissions) none
            | none => .panic

/-- Function `checkServiceAccess`. -/
def checkServiceAccess (cfg : Secrets) (apiKey : String) : AccessResult :=
  if apiKey = cfg.ServiceSecret then .returned none none none
  else .returned none none (some ErrUnauthorized)

/-- Lines 65-74 of `CheckAccess`: the bearer token of the `Authorization`
header. -/
def bearerAccess (env : Env) (cfg : Secrets) (get : String → String) (a : Nat) :
    AccessResult :=
  let authHeader := get "Authorization"
  if authHeader = "" then .returned none none (some ErrUnauthorized)
  else
    match split ' ' authHeader.data [] with
    | [scheme, token] =>
      if String.mk (scheme.map env.lower) ≠ "bearer" then
        .returned none none (some ErrUnauthorized)
      else checkUserAndAdminAccess env cfg (String.mk token) a
    | _ => .returned none none (some ErrUnauthorized)

/-- Method `AccessLevel.CheckAccess`; `get name` is `c.Get(name, "")`. -/
def CheckAccess (env : Env) (cfg : Secrets) (get : String → String) (a : Nat) :
    AccessResult :=
  if a = AccessLevelPublic then .returned none none none
  else if a = AccessLevelService then checkServiceAccess cfg (get "Api-Key")
  else if a = AccessLevelSearch then
    match checkServiceAccess cfg (get "X-Api-Key") with
    | .returned _ _ none => .returned none none none
    | _ => bearerAccess env cfg get a
  else if a = AccessLevelUser ∨ a = AccessLevelAdmin then bearerAccess env cfg get a
  else .returned none none (some ErrUnauthorized)

/-- Example secrets. -/
def sampleSecrets : Secrets :=
  { AdminSecret := "admin-secret", UserSecret := "user-secret",
    ServiceSecret := "service-secret" }

/-- An example library: the token string `tok` is a valid HMAC token signed
with the user secret whose claims are `access: {search: true}`. -/
def sampleEnv : Env :=
  { decode := fun tokenStr =>
      if tokenStr = "tok" then
        some { hmac := true, key := "user-secret",
               claims := [("access", .object [("search", .bool true)])],
               claimsValid := true }
      else none
    uuidParse := fun id => some id
    lower := asciiLower }

/-- Request headers with a wrong `X-Api-Key` and the bearer token `tok`. -/
def searchHeaders (name : String) : String :=
  if name = "X-Api-Key" then "wrong-key"
  else if name = "Authorization" then "Bearer tok"
  else ""

/-! ## `ts_common.go` -/

/-- The class `[a-zA-Z0-9 ]` whose complement the pattern `alpha` matches. -/
def isAlnumSpace (c : Char) : Bool :=
  (97 ≤ c.toNat && c.toNat ≤ 122) || (65 ≤ c.toNat && c.toNat ≤ 90) ||
    (48 ≤ c.toNat && c.toNat ≤ 57) || c = ' '

/-- The class `\s` of the pattern `stringRg`: tab, line feed, form feed,
carriage return, space. -/
def isWhite (c : Char) : Bool :=
  c = '\t' || c = '\n' || c.toNat = 12 || c = '\r' || c = ' '

/-- Go `ReplaceAllString` for a pattern `[class]+`: every maximal run of
characters of the class is replaced by `repl`; `inRun` tells that the
character before was of the class. -/
def replaceRuns (cls : Char → Bool) (repl : List Char) : Bool → List Char → List Char
  | _, [] => []
  | inRun, c :: rest =>
    if cls c then (if inRun then [] else repl) ++ replaceRuns cls repl true rest
    else c :: replaceRuns cls repl false rest

/-- The loop of `ToTsQuery`, lines 35-46, with the builder and
`appliedCount`. -/
def joinLoop : List (List Char) → List Char → Nat → List Char
  | [], builder, _ => builder
  | piece :: rest, builder, appliedCount =>
    if piece.length = 0 then joinLoop rest builder appliedCount
    else
      joinLoop rest (builder ++ (if appliedCount ≠ 0 then ['|'] else []) ++ piece)
        (appliedCount + 1)

/-- Function `ToTsQuery`; `lower` is `unicode.ToLower`. -/
def ToTsQuery (lower : Char → Char) (query : String) : String :=
  if query.length = 0 then query
  else
    let lowered := query.data.map lower
    let sp := split '|'
      (replaceRuns isWhite ['|'] false
        (replaceRuns (fun c => !isAlnumSpace c) [] false lowered)) []
    String.mk (joinLoop sp [] 0)

/-- The query as the documentation words it: lower-case, delete every
character that is not an ASCII letter, digit or space, split on spaces, join
the non-empty words with `|`; the empty query unchanged. -/
def tsQueryByWords (lower : Char → Char) (query : String) : String :=
  if query = "" then query
  else
    String.mk (List.intercalate ['|']
      ((split ' ' ((query.data.map lower).filter isAlnumSpace) []).filter (fun w => w ≠ [])))

end Common

namespace Rabbit

/-! ## Shared lemmas -/

theorem sprintf_connect (a b c d : String) :
    Sprintf "amqps://%s:%s@%s:%s" [a, b, c, d] =
      "amqps://" ++ a ++ ":" ++ b ++ "@" ++ c ++ ":" ++ d := by
  apply String.ext
  simp [Sprintf, sprintfAux]

theorem connectURI_eq (cfg : RabbitMQConfig) :
    connectURI cfg =
      "amqps://" ++ PathEscape cfg.Username ++ ":" ++ PathEscape cfg.Password ++ "@" ++
        cfg.Host ++ ":" ++ PathEscape cfg.Port := by
  unfold connectURI
  exact sprintf_connect _ _ _ _

theorem connect_some_trace (env : Amqp) (c : Client) (cfg : RabbitMQConfig) (w : World) :
    (Client.Connect env c (some cfg) w).2.2.trace = w.trace ++ [Call.Dial (connectURI cfg)] := by
  simp only [Client.Connect]
  cases env.Dial w.trace (connectURI cfg) <;> rfl

/-! ## Connection -/

/-- C1: for a nil configuration `Connect` returns `ErrInvalidConfig`, leaves
the receiver and the world as they were (no dial is attempted), and
`NewClient(nil)` returns no client together with that error. -/
theorem connect_nil_config (env : Amqp) (c : Client) (w : World) :
    Client.Connect env c none w = (some GoError.ErrInvalidConfig, c, w) ∧
    NewClient env none w = ((none, some GoError.ErrInvalidConfig), w) := by
  constructor <;> rfl

/-- C2, refuted as stated: for the host `[::1]` the URI that `Connect` dials
carries the host verbatim, while the URI with all four components escaped
is a different one. -/
theorem connect_host_not_escaped :
    (Client.Connect openBroker ⟨none⟩ (some ipv6Config) World.init).2.2.trace =
      [Call.Dial "amqps://guest:guest@[::1]:5671"] ∧
    allEscapedURI ipv6Config = "amqps://guest:guest@%5B::1%5D:5671" ∧
    (Client.Connect openBroker ⟨none⟩ (some ipv6Config) World.init).2.2.trace ≠
      [Call.Dial (allEscapedURI ipv6Config)] := by
  decide

/-- C2, amended: for every non-nil configuration `Connect` makes exactly one
library call, a dial of `amqps://U:P@H:T` where `U`, `P` and `T` are the
percent-escaped username, password and port and `H` is the host as given. -/
theorem connect_dials_uri (env : Amqp) (c : Client) (cfg : RabbitMQConfig) (w : World) :
    (Client.Connect env c (some cfg) w).2.2.trace =
      w.trace ++ [Call.Dial ("amqps://" ++ PathEscape cfg.Username ++ ":" ++
        PathEscape cfg.Password ++ "@" ++ cfg.Host ++ ":" ++ PathEscape cfg.Port)] := by
  rw [connect_some_trace, connectURI_eq]

/-- C3, refuted as stated: a configuration with an empty username is dialled
all the same, and on a broker that accepts the dial `Connect` returns no
error. -/
theorem connect_empty_username_dials :
    missingRequired noUserConfig = true ∧
    (Client.Connect openBroker ⟨none⟩ (some noUserConfig) World.init).1 = none ∧
    (Client.Connect openBroker ⟨none⟩ (some noUserConfig) World.init).2.2.trace =
      [Call.Dial "amqps://:secret@mq.local:5671"] := by
  decide

/-- C3, amended: `Connect` does not inspect the fields of a non-nil
configuration.  Whether or not a required field is empty it dials the URI built
from the fields as they are, and it fails exactly when that dial fails, with
the dial's error. -/
theorem connect_no_field_check (env : Amqp) (c : Client) (cfg : RabbitMQConfig) (w : World) :
    (Client.Connect env c (some cfg) w).2.2.trace = w.trace ++ [Call.Dial (connectURI cfg)] ∧
    (∀ err, (Client.Connect env c (some cfg) w).1 = some err ↔
      env.Dial w.trace (connectURI cfg) = .error err) ∧
    ((Client.Connect env c (some cfg) w).1 = none ↔
      ∃ conn, env.Dial w.trace (connectURI cfg) = .ok conn) := by
  refine ⟨connect_some_trace env c cfg w, ?_, ?_⟩
  · intro err
    simp only [Client.Connect]
    cases h : env.Dial w.trace (connectURI cfg) <;> simp
  · simp only [Client.Connect]
    cases h : env.Dial w.trace (connectURI cfg) <;> simp

/-! ## Queue provisioning and construction -/

theorem createQueue_channel_error (env : Amqp) (conn : Nat) (topic : String) (w : World)
    (err : GoError) (h : env.ConnectionChannel w.trace conn = .error err) :
    Client.createQueue env ⟨some conn⟩ topic w =
      (.returned (none, some err), w.call (.ConnectionChannel conn)) := by
  simp only [Client.createQueue, h]

theorem createQueue_declare_error (env : Amqp) (conn : Nat) (topic : String) (w : World)
    (ch : Nat) (err : GoError) (h : env.ConnectionChannel w.trace conn = .ok ch)
    (hd : env.QueueDeclare (w.trace ++ [.ConnectionChannel conn]) ch topic
      true false false false = some err) :
    Client.createQueue env ⟨some conn⟩ topic w =
      (.returned (none, some err),
        (w.call (.ConnectionChannel conn)).call (.QueueDeclare ch topic true false false false)) := by
  simp only [Client.createQueue, h, World.call, hd]

theorem createQueue_ok (env : Amqp) (conn : Nat) (topic : String) (w : World)
    (ch : Nat) (h : env.ConnectionChannel w.trace conn = .ok ch)
    (hd : env.QueueDeclare (w.trace ++ [.ConnectionChannel conn]) ch topic
      true false false false = none) :
    Client.createQueue env ⟨some conn⟩ topic w =
      (.returned (some ch, none),
        (w.call (.ConnectionChannel conn)).call (.QueueDeclare ch topic true false false false)) := by
  simp only [Client.createQueue, h, World.call, hd]

/-- C4, refuted as stated: when the session cannot be opened, and when the
queue declaration is rejected, `NewPublisher` and `NewListener` panic with the
error instead of returning it. -/
theorem constructors_panic_on_provisioning_failure :
    (NewPublisher lostBroker sampleClient "orders" World.init).1 =
      .panicked (.err ErrClosed) ∧
    (NewListener Nat lostBroker sampleClient "orders" World.init).1 =
      .panicked (.err ErrClosed) ∧
    (NewPublisher rejectingBroker sampleClient "orders" World.init).1 =
      .panicked (.err (.amqp "PRECONDITION_FAILED")) ∧
    (NewListener Nat rejectingBroker sampleClient "orders" World.init).1 =
      .panicked (.err (.amqp "PRECONDITION_FAILED")) :=
  ⟨rfl, rfl, rfl, rfl⟩

/-- C4, amended: on a client with a connection, when the session cannot be
opened or the queue declaration is rejected, `NewPublisher` and `NewListener`
each panic with that error; when provisioning succeeds and confirmation-mode
activation fails, `NewPublisher` returns that error and no Publisher. -/
theorem constructors_on_setup_failure (B : Type) (env : Amqp) (conn : Nat) (topic : String)
    (w : World) :
    (∀ err, env.ConnectionChannel w.trace conn = .error err →
      (NewPublisher env ⟨some conn⟩ topic w).1 = .panicked (.err err) ∧
      (NewListener B env ⟨some conn⟩ topic w).1 = .panicked (.err err)) ∧
    (∀ ch err, env.ConnectionChannel w.trace conn = .ok ch →
      env.QueueDeclare (w.trace ++ [.ConnectionChannel conn]) ch topic
        true false false false = some err →
      (NewPublisher env ⟨some conn⟩ topic w).1 = .panicked (.err err) ∧
      (NewListener B env ⟨some conn⟩ topic w).1 = .panicked (.err err)) ∧
    (∀ ch err, env.ConnectionChannel w.trace conn = .ok ch →
      env.QueueDeclare (w.trace ++ [.ConnectionChannel conn]) ch topic
        true false false false = none →
      env.Confirm (w.trace ++ [.ConnectionChannel conn,
        .QueueDeclare ch topic true false false false, .NotifyPublish ch]) ch false = some err →
      (NewPublisher env ⟨some conn⟩ topic w).1 = .returned (none, some err)) := by
  refine ⟨?_, ?_, ?_⟩
  · intro err h
    simp only [NewPublisher, NewListener, createQueue_channel_error env conn topic w err h,
      and_self]
  · intro ch err h hd
    simp only [NewPublisher, NewListener, createQueue_declare_error env conn topic w ch err h hd,
      and_self]
  · intro ch err h hd hc
    simp only [NewPublisher, createQueue_ok env conn topic w ch h hd, World.call,
      List.append_assoc, List.singleton_append, List.cons_append, List.nil_append] at hc ⊢
    rw [hc]

theorem constructors_on_setup_failure_witness :
    ((NewPublisher lostBroker ⟨some 1⟩ "orders" World.init).1 = .panicked (.err ErrClosed) ∧
      (NewListener Nat lostBroker ⟨some 1⟩ "orders" World.init).1 =
        .panicked (.err ErrClosed)) ∧
    ((NewPublisher rejectingBroker ⟨some 1⟩ "orders" World.init).1 =
        .panicked (.err (.amqp "PRECONDITION_FAILED")) ∧
      (NewListener Nat rejectingBroker ⟨some 1⟩ "orders" World.init).1 =
        .panicked (.err (.amqp "PRECONDITION_FAILED"))) ∧
    (NewPublisher noConfirmBroker ⟨some 1⟩ "orders" World.init).1 =
      .returned (none, some (.amqp "NOT_IMPLEMENTED")) :=
  ⟨(constructors_on_setup_failure Nat lostBroker 1 "orders" World.init).1 ErrClosed rfl,
   (constructors_on_setup_failure Nat rejectingBroker 1 "orders" World.init).2.1 1
      (.amqp "PRECONDITION_FAILED") rfl rfl,
   (constructors_on_setup_failure Nat noConfirmBroker 1 "orders" World.init).2.2 1
      (.amqp "NOT_IMPLEMENTED") rfl rfl rfl⟩

theorem newPublisher_success (env : Amqp) (c : Client) (topic : String) (w w1 : World)
    (p : Publisher) (h : NewPublisher env c topic w = (.returned (some p, none), w1)) :
    ∃ conn ch, c.Connection = some conn ∧ p = ⟨some ch, c⟩ ∧
      w1.trace = w.trace ++ [.ConnectionChannel conn,
        .QueueDeclare ch topic true false false false, .NotifyPublish ch, .Confirm ch false] := by
  obtain ⟨conn⟩ := c
  cases conn with
  | none => simp [NewPublisher, Client.createQueue] at h
  | some conn =>
    cases hc : env.ConnectionChannel w.trace conn with
    | error err => simp [NewPublisher, Client.createQueue, hc] at h
    | ok ch =>
      cases hd : env.QueueDeclare (w.trace ++ [.ConnectionChannel conn]) ch topic
          true false false false with
      | some err => simp [NewPublisher, Client.createQueue, hc, hd, World.call] at h
      | none =>
        cases hf : env.Confirm (w.trace ++ [.ConnectionChannel conn,
            .QueueDeclare ch topic true false false false, .NotifyPublish ch]) ch false with
        | some err => simp [NewPublisher, Client.createQueue, hc, hd, hf, World.call] at h
        | none =>
          simp [NewPublisher, Client.createQueue, hc, hd, hf, World.call] at h
          obtain ⟨hp, hw⟩ := h
          exact ⟨conn, ch, rfl, hp.symm, by rw [← hw]⟩

theorem publish_on_session (env : Amqp) (p : Publisher) (ch : Nat) (t : TopicI) (w : World)
    (h : p.ch = some ch) :
    Publisher.Publish env p t w =
      (.returned (env.ChannelPublish w.trace ch "" t.GetTopicName false false
          ⟨Persistent, env.Now w.trace, "text/plain", t.GetBody⟩),
        w.call (.ChannelPublish ch "" t.GetTopicName false false
          ⟨Persistent, env.Now w.trace, "text/plain", t.GetBody⟩)) := by
  simp only [Publisher.Publish, h]

theorem confirmLoop_trace (cs : List Confirmation) (w : World) :
    (confirmLoop cs w).trace = w.trace := by
  induction cs generalizing w with
  | nil => rfl
  | cons confirm rest ih =>
    simp only [confirmLoop]
    split
    · rw [ih]; rfl
    · rw [ih]; rfl

/-! ## Publisher -/

/-- C5, refuted as stated: a Publisher constructed for the topic `orders`
sends a topic object named `audit` with the routing key `audit`, while the
only queue declared on its session is `orders`. -/
theorem publish_not_to_declared_queue :
    NewPublisher openBroker sampleClient "orders" World.init =
      (.returned (some samplePublisher, none), sampleWorld) ∧
    declarations sampleWorld.trace = [("orders", true, false, false, false)] ∧
    publishedKeys (Publisher.Publish openBroker samplePublisher auditTopic sampleWorld).2.trace =
      ["audit"] := by
  decide

/-- C5, amended: for every Publisher constructed by `NewPublisher(c, T)` and
every topic object `t`, `Publish(t)` sends on the session on which `T` was
declared, on the default exchange, with the routing key `t.GetTopicName()`;
the message is addressed to the declared queue `T` exactly when
`t.GetTopicName()` is `T`. -/
theorem publish_addresses_topic_name (env : Amqp) (c : Client) (T : String) (w w1 : World)
    (p : Publisher) (h : NewPublisher env c T w = (.returned (some p, none), w1))
    (t : TopicI) (w2 : World) :
    ∃ ch msg, Call.QueueDeclare ch T true false false false ∈ w1.trace ∧
      (Publisher.Publish env p t w2).2.trace =
        w2.trace ++ [.ChannelPublish ch "" t.GetTopicName false false msg] ∧
      (publishedKeys [Call.ChannelPublish ch "" t.GetTopicName false false msg] = [T] ↔
        t.GetTopicName = T) := by
  obtain ⟨conn, ch, _, hp, hw⟩ := newPublisher_success env c T w w1 p h
  have hch : p.ch = some ch := by rw [hp]
  refine ⟨ch, ⟨Persistent, env.Now w2.trace, "text/plain", t.GetBody⟩, ?_, ?_, ?_⟩
  · rw [hw]; simp
  · rw [publish_on_session env p ch t w2 hch]; rfl
  · simp [publishedKeys]

theorem publish_addresses_topic_name_witness :
    ∃ ch msg, Call.QueueDeclare ch "orders" true false false false ∈ sampleWorld.trace ∧
      (Publisher.Publish openBroker samplePublisher auditTopic sampleWorld).2.trace =
        sampleWorld.trace ++ [.ChannelPublish ch "" auditTopic.GetTopicName false false msg] ∧
      (publishedKeys [Call.ChannelPublish ch "" auditTopic.GetTopicName false false msg] =
        ["orders"] ↔ auditTopic.GetTopicName = "orders") :=
  publish_addresses_topic_name openBroker sampleClient "orders" World.init sampleWorld
    samplePublisher (by decide) auditTopic sampleWorld

/-- C6: on a Publisher with a session, `Publish(t)` hands the library exactly
one message: on the default exchange, mandatory and immediate off, delivery
mode persistent (2), content type `text/plain`, the body `t.GetBody()` and
the clock reading of the call as timestamp; nothing is logged. -/
theorem publish_message_fields (env : Amqp) (p : Publisher) (ch : Nat) (t : TopicI)
    (w : World) (h : p.ch = some ch) :
    ∃ msg, (Publisher.Publish env p t w).2.trace =
        w.trace ++ [.ChannelPublish ch "" t.GetTopicName false false msg] ∧
      msg.DeliveryMode = 2 ∧ msg.ContentType = "text/plain" ∧ msg.Body = t.GetBody ∧
      msg.Timestamp = env.Now w.trace ∧
      (Publisher.Publish env p t w).2.log = w.log := by
  rw [publish_on_session env p ch t w h]
  exact ⟨⟨Persistent, env.Now w.trace, "text/plain", t.GetBody⟩, rfl, rfl, rfl, rfl, rfl, rfl⟩

theorem publish_message_fields_witness :
    ∃ msg, (Publisher.Publish openBroker samplePublisher auditTopic sampleWorld).2.trace =
        sampleWorld.trace ++ [.ChannelPublish 1 "" "audit" false false msg] ∧
      msg.DeliveryMode = 2 ∧ msg.ContentType = "text/plain" ∧ msg.Body = [104, 105] ∧
      msg.Timestamp = 1700000004 ∧
      (Publisher.Publish openBroker samplePublisher auditTopic sampleWorld).2.log = [] :=
  publish_message_fields openBroker samplePublisher 1 auditTopic sampleWorld rfl

/-- C7: on a Publisher with a session, `Publish(t)` never panics and returns
exactly what the library's send call returns, so it returns an error if and
only if the send does; confirmations handled by the background task, before
or after the call, make no library call and leave the returned value as it
is.  When the library refuses a send on a closed channel, `Publish` after
`Close` returns an error. -/
theorem publish_returns_send_result (env : Amqp) (p : Publisher) (ch : Nat) (t : TopicI)
    (w : World) (h : p.ch = some ch) (cs : List Confirmation) :
    (∃ msg, (Publisher.Publish env p t w).2.trace =
        w.trace ++ [.ChannelPublish ch "" t.GetTopicName false false msg] ∧
      (Publisher.Publish env p t w).1 =
        .returned (env.ChannelPublish w.trace ch "" t.GetTopicName false false msg)) ∧
    (Publisher.Publish env p t (confirmLoop cs w)).1 = (Publisher.Publish env p t w).1 ∧
    (confirmLoop cs (Publisher.Publish env p t w).2).trace =
      (Publisher.Publish env p t w).2.trace ∧
    ((∀ tr exchange key mandatory immediate msg, Call.ChannelClose ch ∈ tr →
        ∃ err, env.ChannelPublish tr ch exchange key mandatory immediate msg = some err) →
      ∃ err, (Publisher.Publish env (Publisher.Close env p w).2.1 t
        (Publisher.Close env p w).2.2).1 = .returned (some err)) := by
  refine ⟨?_, ?_, confirmLoop_trace cs _, ?_⟩
  · rw [publish_on_session env p ch t w h]
    exact ⟨_, rfl, rfl⟩
  · rw [publish_on_session env p ch t w h, publish_on_session env p ch t _ h,
      confirmLoop_trace]
  · intro hlib
    have hclose : Publisher.Close env p w =
        (env.ChannelClose w.trace ch, p, w.call (.ChannelClose ch)) := by
      simp only [Publisher.Close, h]
    rw [hclose]
    simp only []
    rw [publish_on_session env p ch t _ h]
    obtain ⟨err, he⟩ := hlib (w.call (.ChannelClose ch)).trace "" t.GetTopicName false false
      ⟨Persistent, env.Now (w.call (.ChannelClose ch)).trace, "text/plain", t.GetBody⟩
      (by simp [World.call])
    exact ⟨err, by rw [he]⟩

theorem publish_returns_send_result_witness :
    (Publisher.Publish openBroker samplePublisher auditTopic sampleWorld).1 =
      .returned none ∧
    ∃ err, (Publisher.Publish openBroker
      (Publisher.Close openBroker samplePublisher sampleWorld).2.1 auditTopic
      (Publisher.Close openBroker samplePublisher sampleWorld).2.2).1 = .returned (some err) :=
  ⟨by decide,
   (publish_returns_send_result openBroker samplePublisher 1 auditTopic sampleWorld rfl
      []).2.2.2 (by
        intro tr exchange key mandatory immediate msg hmem
        exact ⟨ErrClosed, by simp [openBroker, hmem]⟩)⟩

/-- C8, refuted as stated: on a library whose channel-close write fails, the
first `Close` of a successfully constructed Publisher returns that error; on
a library that reports a close of a closed channel, the second `Close`
returns `ErrClosed`. -/
theorem publisher_close_can_fail :
    NewPublisher brokenPipeBroker sampleClient "orders" World.init =
      (.returned (some samplePublisher, none), sampleWorld) ∧
    (Publisher.Close brokenPipeBroker samplePublisher sampleWorld).1 =
      some (.amqp "write: broken pipe") ∧
    NewPublisher openBroker sampleClient "orders" World.init =
      (.returned (some samplePublisher, none), sampleWorld) ∧
    (Publisher.Close openBroker samplePublisher sampleWorld).1 = none ∧
    (Publisher.Close openBroker (Publisher.Close openBroker samplePublisher sampleWorld).2.1
      (Publisher.Close openBroker samplePublisher sampleWorld).2.2).1 = some ErrClosed := by
  decide

/-- C8, amended: for every successfully constructed Publisher, each `Close`
calls the library's channel close on the Publisher's session, also when the
session was closed before, returns exactly what that call returns and leaves
the Publisher as it is; two `Close` calls in succession return no error both
times exactly when the library's close reports none on both calls. -/
theorem publisher_close_twice (env : Amqp) (c : Client) (T : String) (w w1 : World)
    (p : Publisher) (h : NewPublisher env c T w = (.returned (some p, none), w1))
    (w2 : World) :
    ∃ ch, p.ch = some ch ∧
      (Publisher.Close env p w2).1 = env.ChannelClose w2.trace ch ∧
      (Publisher.Close env p w2).2.1 = p ∧
      (Publisher.Close env (Publisher.Close env p w2).2.1 (Publisher.Close env p w2).2.2).1 =
        env.ChannelClose (w2.trace ++ [.ChannelClose ch]) ch ∧
      (Publisher.Close env (Publisher.Close env p w2).2.1
        (Publisher.Close env p w2).2.2).2.2.trace =
        w2.trace ++ [.ChannelClose ch, .ChannelClose ch] := by
  obtain ⟨conn, ch, _, hp, _⟩ := newPublisher_success env c T w w1 p h
  subst hp
  refine ⟨ch, rfl, rfl, rfl, rfl, ?_⟩
  simp [Publisher.Close, World.call]

theorem publisher_close_twice_witness :
    ∃ ch, samplePublisher.ch = some ch ∧
      (Publisher.Close openBroker samplePublisher sampleWorld).1 =
        openBroker.ChannelClose sampleWorld.trace ch ∧
      (Publisher.Close openBroker samplePublisher sampleWorld).2.1 = samplePublisher ∧
      (Publisher.Close openBroker (Publisher.Close openBroker samplePublisher sampleWorld).2.1
        (Publisher.Close openBroker samplePublisher sampleWorld).2.2).1 =
        openBroker.ChannelClose (sampleWorld.trace ++ [.ChannelClose ch]) ch ∧
      (Publisher.Close openBroker (Publisher.Close openBroker samplePublisher sampleWorld).2.1
        (Publisher.Close openBroker samplePublisher sampleWorld).2.2).2.2.trace =
        sampleWorld.trace ++ [.ChannelClose ch, .ChannelClose ch] :=
  publisher_close_twice openBroker sampleClient "orders" World.init sampleWorld
    samplePublisher (by decide) sampleWorld

/-- C9: `Close` on a Client whose connection is nil, and `Close` on a
Publisher whose session is nil, return nil, make no library call, write no
log entry and leave the receiver as it is. -/
theorem close_without_resource (env : Amqp) (cl : Client) (w : World) :
    Client.Close env ⟨none⟩ w = (none, ⟨none⟩, w) ∧
    Publisher.Close env ⟨none, cl⟩ w = (none, ⟨none, cl⟩, w) :=
  ⟨rfl, rfl⟩

/-- C10: on a client with a connection, `createQueue(topic)` first opens a
session; if that fails it returns the error and no session and declares
nothing; otherwise it declares the queue `topic` on that session with durable
true and auto-delete, exclusive, no-wait false, and returns the session
exactly when the declaration succeeds, else the declaration's error and no
session.  Every declaration a call issues is `(topic, true, false, false,
false)`, so two calls for one topic declare identically. -/
theorem createQueue_contract (env : Amqp) (conn : Nat) (topic : String) (w : World) :
    (∀ err, env.ConnectionChannel w.trace conn = .error err →
      Client.createQueue env ⟨some conn⟩ topic w =
        (.returned (none, some err), ⟨w.trace ++ [.ConnectionChannel conn], w.log⟩)) ∧
    (∀ ch, env.ConnectionChannel w.trace conn = .ok ch →
      (Client.createQueue env ⟨some conn⟩ topic w).2 =
        ⟨w.trace ++ [.ConnectionChannel conn, .QueueDeclare ch topic true false false false],
          w.log⟩ ∧
      (∀ err, env.QueueDeclare (w.trace ++ [.ConnectionChannel conn]) ch topic
          true false false false = some err →
        (Client.createQueue env ⟨some conn⟩ topic w).1 = .returned (none, some err)) ∧
      (env.QueueDeclare (w.trace ++ [.ConnectionChannel conn]) ch topic
          true false false false = none →
        (Client.createQueue env ⟨some conn⟩ topic w).1 = .returned (some ch, none))) ∧
    (∀ d ∈ declarations ((Client.createQueue env ⟨some conn⟩ topic w).2.trace.drop
        w.trace.length), d = (topic, true, false, false, false)) := by
  refine ⟨?_, ?_, ?_⟩
  · intro err h
    rw [createQueue_channel_error env conn topic w err h]; rfl
  · intro ch h
    cases hd : env.QueueDeclare (w.trace ++ [.ConnectionChannel conn]) ch topic
        true false false false with
    | some err =>
      rw [createQueue_declare_error env conn topic w ch err h hd]
      simp [World.call]
    | none =>
      rw [createQueue_ok env conn topic w ch h hd]
      simp [World.call]
  · intro d hmem
    cases h : env.ConnectionChannel w.trace conn with
    | error err =>
      rw [createQueue_channel_error env conn topic w err h] at hmem
      simp [World.call, declarations] at hmem
    | ok ch =>
      cases hd : env.QueueDeclare (w.trace ++ [.ConnectionChannel conn]) ch topic
          true false false false with
      | some err =>
        rw [createQueue_declare_error env conn topic w ch err h hd] at hmem
        simpa [World.call, declarations] using hmem
      | none =>
        rw [createQueue_ok env conn topic w ch h hd] at hmem
        simpa [World.call, declarations] using hmem

theorem createQueue_contract_witness :
    Client.createQueue lostBroker ⟨some 1⟩ "orders" World.init =
      (.returned (none, some ErrClosed), ⟨[.ConnectionChannel 1], []⟩) ∧
    (Client.createQueue rejectingBroker ⟨some 1⟩ "orders" World.init).1 =
      .returned (none, some (.amqp "PRECONDITION_FAILED")) ∧
    (Client.createQueue openBroker ⟨some 1⟩ "orders" World.init).1 =
      .returned (some 1, none) ∧
    (Client.createQueue openBroker ⟨some 1⟩ "orders" World.init).2 =
      ⟨[.ConnectionChannel 1, .QueueDeclare 1 "orders" true false false false], []⟩ :=
  ⟨(createQueue_contract lostBroker 1 "orders" World.init).1 ErrClosed rfl,
   ((createQueue_contract rejectingBroker 1 "orders" World.init).2.1 1 rfl).2.1
      (.amqp "PRECONDITION_FAILED") rfl,
   ((createQueue_contract openBroker 1 "orders" World.init).2.1 1 rfl).2.2 rfl,
   ((createQueue_contract openBroker 1 "orders" World.init).2.1 1 rfl).1⟩

/-! ## Listener: the receive loop -/

theorem receiveStep_spec {B : Type}
    (unmarshal : List Nat → Option B → Option GoError × Option B)
    (fn : Option B → Option GoError) (msg : Delivery) (s : LoopState B)
    (h : s.l.actionFn = some fn) :
    ∃ s1, receiveStep unmarshal msg s = .returned s1 ∧
      s1.events = s.events ++
        [.decoded msg.Body (unmarshal msg.Body s.l.body).1,
         .invoked (unmarshal msg.Body s.l.body).2 (fn (unmarshal msg.Body s.l.body).2)] ∧
      s1.w.log = s.w.log ++
        (LoopEvent.logged (.decoded msg.Body (unmarshal msg.Body s.l.body).1 : LoopEvent B) ++
         LoopEvent.logged (.invoked (unmarshal msg.Body s.l.body).2
          (fn (unmarshal msg.Body s.l.body).2) : LoopEvent B)) ∧
      s1.w.trace = s.w.trace ∧
      s1.l = { s.l with body := (unmarshal msg.Body s.l.body).2 } := by
  simp only [receiveStep, h]
  refine ⟨_, rfl, rfl, ?_, ?_, rfl⟩
  · cases hd : (unmarshal msg.Body s.l.body).1 <;>
      cases hf : fn (unmarshal msg.Body s.l.body).2 <;>
      simp [LoopEvent.logged, loggerErrorMsg, String.intercalate, String.intercalate.go]
  · cases hd : (unmarshal msg.Body s.l.body).1 <;>
      cases hf : fn (unmarshal msg.Body s.l.body).2 <;>
      simp [loggerErrorMsg]

theorem receiveLoop_spec {B : Type}
    (unmarshal : List Nat → Option B → Option GoError × Option B)
    (fn : Option B → Option GoError) (msgs : List Delivery) (s : LoopState B)
    (h : s.l.actionFn = some fn) :
    ∃ s1 new, receiveLoop unmarshal msgs s = .returned s1 ∧
      s1.events = s.events ++ new ∧
      new.map LoopEvent.shape = msgs.flatMap (fun m => [some m.Body, none]) ∧
      s1.w.log = s.w.log ++ new.flatMap LoopEvent.logged ∧
      s1.w.trace = s.w.trace ∧
      s1.l.actionFn = s.l.actionFn ∧ s1.l.ch = s.l.ch ∧ s1.l.topic = s.l.topic ∧
      s1.l.cl = s.l.cl ∧ s1.l.closer = s.l.closer := by
  induction msgs generalizing s with
  | nil => exact ⟨s, [], rfl, by simp, rfl, by simp, rfl, rfl, rfl, rfl, rfl, rfl⟩
  | cons msg rest ih =>
    obtain ⟨s1, hstep, hev, hlog, htr, hl⟩ := receiveStep_spec unmarshal fn msg s h
    have h1 : s1.l.actionFn = some fn := by rw [hl]; exact h
    obtain ⟨s2, new, hloop, hev2, hshape, hlog2, htr2, hfn, hch, htopic, hcl, hcloser⟩ :=
      ih s1 h1
    refine ⟨s2, [.decoded msg.Body (unmarshal msg.Body s.l.body).1,
      .invoked (unmarshal msg.Body s.l.body).2 (fn (unmarshal msg.Body s.l.body).2)] ++ new,
      ?_, ?_, ?_, ?_, ?_, ?_, ?_, ?_, ?_, ?_⟩
    · simp only [receiveLoop, hstep]; exact hloop
    · rw [hev2, hev, List.append_assoc]
    · simp [LoopEvent.shape, hshape]
    · rw [hlog2, hlog]; simp
    · rw [htr2, htr]
    · rw [hfn, hl]
    · rw [hch, hl]
    · rw [htopic, hl]
    · rw [hcl, hl]
    · rw [hcloser, hl]

theorem invoked_count_of_shape {B : Type} (new : List (LoopEvent B)) (msgs : List Delivery)
    (h : new.map LoopEvent.shape = msgs.flatMap (fun m => [some m.Body, none])) :
    (new.filter LoopEvent.isInvoked).length = msgs.length := by
  have h1 : (new.filter LoopEvent.isInvoked).length =
      ((new.map LoopEvent.shape).filter Option.isNone).length := by
    clear h
    induction new with
    | nil => rfl
    | cons e rest ih => cases e <;> simp [LoopEvent.isInvoked, LoopEvent.shape, ih]
  rw [h1, h]
  clear h h1
  induction msgs with
  | nil => rfl
  | cons m rest ih => simp [List.flatMap_cons, ih]

theorem receiveLoop_trace {B : Type}
    (unmarshal : List Nat → Option B → Option GoError × Option B)
    (msgs : List Delivery) (s s1 : LoopState B)
    (h : receiveLoop unmarshal msgs s = .returned s1) : s1.w.trace = s.w.trace := by
  induction msgs generalizing s with
  | nil =>
    simp only [receiveLoop, Outcome.returned.injEq] at h
    rw [h]
  | cons msg rest ih =>
    cases hfn : s.l.actionFn with
    | none => simp [receiveLoop, receiveStep, hfn] at h
    | some fn =>
      obtain ⟨s2, hstep, _, _, htr, _⟩ := receiveStep_spec unmarshal fn msg s hfn
      simp only [receiveLoop, hstep] at h
      rw [ih s2 h, htr]

/-- C11: with a handler registered, for every finite sequence of messages the
receive loop ends without panic, and what it did is, message by message in
arrival order, the decode of the message followed by one call of the handler:
the handler is called exactly once per message, the i-th call after the decode
of the i-th message and before the decode of the next. -/
theorem handler_called_in_arrival_order {B : Type}
    (unmarshal : List Nat → Option B → Option GoError × Option B)
    (fn : Option B → Option GoError) (msgs : List Delivery) (s : LoopState B)
    (h : s.l.actionFn = some fn) :
    ∃ s1 new, receiveLoop unmarshal msgs s = .returned s1 ∧
      s1.events = s.events ++ new ∧
      new.map LoopEvent.shape = msgs.flatMap (fun m => [some m.Body, none]) ∧
      (new.filter LoopEvent.isInvoked).length = msgs.length := by
  obtain ⟨s1, new, hloop, hev, hshape, _⟩ := receiveLoop_spec unmarshal fn msgs s h
  exact ⟨s1, new, hloop, hev, hshape, invoked_count_of_shape new msgs hshape⟩

theorem handler_called_in_arrival_order_witness :
    ∃ s1 new, receiveLoop unmarshalDeviceUpdate sampleDeliveries sampleLoop = .returned s1 ∧
      s1.events = sampleLoop.events ++ new ∧
      new.map LoopEvent.shape = sampleDeliveries.flatMap (fun m => [some m.Body, none]) ∧
      (new.filter LoopEvent.isInvoked).length = sampleDeliveries.length :=
  handler_called_in_arrival_order unmarshalDeviceUpdate requireHome sampleDeliveries
    sampleLoop rfl

/-- C12: with a handler registered, a handler error ends nothing: the loop
runs to the end of the stream without panic, the handler is called once for
every message whatever earlier calls returned, the log grows by exactly the
entries of the events (one error entry for a failed handler call, none for a
successful one), and no library call is made; the loop hands no error to the
caller of `ListenAsync`. -/
theorem handler_failure_is_logged_and_skipped {B : Type}
    (unmarshal : List Nat → Option B → Option GoError × Option B)
    (fn : Option B → Option GoError) (msgs : List Delivery) (s : LoopState B)
    (h : s.l.actionFn = some fn) :
    (∃ s1 new, receiveLoop unmarshal msgs s = .returned s1 ∧
      s1.events = s.events ++ new ∧
      (new.filter LoopEvent.isInvoked).length = msgs.length ∧
      s1.w.log = s.w.log ++ new.flatMap LoopEvent.logged ∧
      s1.w.trace = s.w.trace) ∧
    (∀ arg err, (LoopEvent.logged (.invoked arg (some err) : LoopEvent B)).length = 1) ∧
    (∀ arg, LoopEvent.logged (.invoked arg none : LoopEvent B) = []) := by
  refine ⟨?_, fun _ _ => rfl, fun _ => rfl⟩
  obtain ⟨s1, new, hloop, hev, hshape, hlog, htr, _⟩ := receiveLoop_spec unmarshal fn msgs s h
  exact ⟨s1, new, hloop, hev, invoked_count_of_shape new msgs hshape, hlog, htr⟩

theorem handler_failure_is_logged_and_skipped_witness :
    (∃ s1 new, receiveLoop unmarshalDeviceUpdate sampleDeliveries sampleLoop = .returned s1 ∧
      s1.events = sampleLoop.events ++ new ∧
      (new.filter LoopEvent.isInvoked).length = sampleDeliveries.length ∧
      s1.w.log = sampleLoop.w.log ++ new.flatMap LoopEvent.logged ∧
      s1.w.trace = sampleLoop.w.trace) ∧
    ∃ s1, receiveLoop unmarshalDeviceUpdate sampleDeliveries sampleLoop = .returned s1 ∧
      s1.w.log = [.error "Cannot Run Action function inside Listener\n no home",
        .error "Cannot Unmarshal inside Listener\n invalid character",
        .error "Cannot Run Action function inside Listener\n no home"] ∧
      (s1.events.filter LoopEvent.isInvoked).length = 4 :=
  ⟨(handler_failure_is_logged_and_skipped unmarshalDeviceUpdate requireHome sampleDeliveries
    sampleLoop rfl).1, _, rfl, by decide, by decide⟩

/-! ## Listener: the shutdown channel -/

theorem step_balanced (a : Action) (s s1 : CloserState) (h : step a s = some s1)
    (hb : s.Balanced) : s1.Balanced ∧ s1.cap = s.cap := by
  obtain ⟨hb1, hb2⟩ := hb
  cases a with
  | listenAsync progress =>
    cases progress <;>
      (simp only [step, Option.some.injEq] at h; subst h; exact ⟨⟨hb1, hb2⟩, rfl⟩)
  | close op =>
    cases op with
    | send c => simp only [step, Option.some.injEq] at h; subst h; exact ⟨⟨hb1, hb2⟩, rfl⟩
    | receive c => simp [step] at h
  | handOff =>
    simp only [step] at h
    split at h
    · rename_i hc
      simp only [Option.some.injEq] at h; subst h
      refine ⟨⟨hb1, ?_⟩, rfl⟩
      show s.listenReturned + 1 + s.buffered = s.closeReturned + 1
      omega
    · simp at h
  | bufferSend =>
    simp only [step] at h
    split at h
    · rename_i hc
      simp only [Option.some.injEq] at h; subst h
      refine ⟨⟨?_, ?_⟩, rfl⟩
      · show s.buffered + 1 ≤ s.cap
        omega
      · show s.listenReturned + (s.buffered + 1) = s.closeReturned + 1
        omega
    · simp at h
  | bufferReceive =>
    simp only [step] at h
    split at h
    · rename_i hc
      simp only [Option.some.injEq] at h; subst h
      refine ⟨⟨?_, ?_⟩, rfl⟩
      · show s.buffered - 1 ≤ s.cap
        omega
      · show s.listenReturned + 1 + (s.buffered - 1) = s.closeReturned
        omega
    · simp at h

theorem run_balanced (acts : List Action) (s s1 : CloserState) (h : run acts s = some s1)
    (hb : s.Balanced) : s1.Balanced ∧ s1.cap = s.cap := by
  induction acts generalizing s with
  | nil =>
    simp only [run, Option.some.injEq] at h
    subst h
    exact ⟨hb, rfl⟩
  | cons a rest ih =>
    simp only [run] at h
    cases hs : step a s with
    | none => simp [hs] at h
    | some s2 =>
      simp only [hs] at h
      obtain ⟨hb2, hc2⟩ := step_balanced a s s2 hs hb
      obtain ⟨hb3, hc3⟩ := ih s2 h hb2
      exact ⟨hb3, by rw [hc3, hc2]⟩

theorem newListener_success {B : Type} (env : Amqp) (c : Client) (topic : String)
    (w w1 : World) (l : Listener B)
    (h : NewListener B env c topic w = (.returned (some l, none), w1)) :
    ∃ ch, l = { ch := ch, cl := c, topic := topic, actionFn := none, closer := { cap := 0 },
                body := none } := by
  simp only [NewListener] at h
  split at h
  · simp at h
  · simp at h
  · rename_i ch w2 _
    simp only [Prod.mk.injEq, Outcome.returned.injEq, Option.some.injEq, and_true] at h
    exact ⟨ch, h.1.symm⟩

theorem reachable_unbuffered {B : Type} (l : Listener B) (hcap : l.closer.cap = 0)
    (acts : List Action) (s : CloserState) (hrun : run acts (CloserState.init l) = some s) :
    s.cap = 0 ∧ s.buffered = 0 ∧ s.listenReturned = s.closeReturned := by
  have hinit : (CloserState.init l).Balanced := ⟨Nat.zero_le _, rfl⟩
  obtain ⟨⟨hb1, hb2⟩, hc⟩ := run_balanced acts _ s hrun hinit
  have hc0 : s.cap = 0 := by rw [hc]; exact hcap
  have hb0 : s.buffered = 0 := by omega
  exact ⟨hc0, hb0, by omega⟩

/-- C13, refuted as stated: a value whose field `DeletedAt` is set is published
as its JSON coding and delivered to a freshly constructed Listener; the
handler is called with a value whose `DeletedAt` is nil, which is not the value
published. -/
theorem round_trip_drops_excluded_field :
    (∃ msg, (Publisher.Publish openBroker samplePublisher
        ⟨"t1", marshalDeviceUpdate deletedUpdate⟩ sampleWorld).2.trace =
        sampleWorld.trace ++ [.ChannelPublish 1 "" "t1" false false msg] ∧
      msg.Body = marshalDeviceUpdate deletedUpdate) ∧
    (NewListener DeviceUpdate openBroker sampleClient "orders" World.init).1 =
      .returned (some sampleListener, none) ∧
    (∃ s1, receiveLoop unmarshalDeviceUpdate [⟨marshalDeviceUpdate deletedUpdate⟩] sampleLoop =
        .returned s1 ∧
      s1.events = [.decoded (marshalDeviceUpdate deletedUpdate) none,
        .invoked (some ⟨"h1", "r1", none⟩) none]) ∧
    (some (⟨"h1", "r1", none⟩ : DeviceUpdate) ≠ some deletedUpdate) :=
  ⟨⟨_, rfl, rfl⟩, rfl, ⟨_, rfl, rfl⟩, by decide⟩

/-- C13, amended: for every value `v` that the JSON coding of its type takes
back to itself (decoding the coding of `v` into a nil target gives `v` without
error), a topic object whose body is the coding of `v` is handed to the
library with that body byte for byte, and when that body is delivered to a
freshly constructed Listener with a handler registered, the handler is called
once, with a pointer to a value equal to `v`. -/
theorem round_trip_of_coded_value {B : Type} (env : Amqp) (marshal : B → List Nat)
    (unmarshal : List Nat → Option B → Option GoError × Option B) (v : B)
    (hcodec : unmarshal (marshal v) none = (none, some v))
    (p : Publisher) (ch : Nat) (hp : p.ch = some ch) (name : String) (w : World)
    (c : Client) (topic : String) (w0 w1 : World) (l : Listener B)
    (hl : NewListener B env c topic w0 = (.returned (some l, none), w1))
    (fn : Option B → Option GoError) (w2 : World) :
    (∃ msg, (Publisher.Publish env p ⟨name, marshal v⟩ w).2.trace =
        w.trace ++ [.ChannelPublish ch "" name false false msg] ∧ msg.Body = marshal v) ∧
    ∃ s1, receiveLoop unmarshal [⟨marshal v⟩]
        ⟨l.AssignHandlerFunction (some fn), w2, []⟩ = .returned s1 ∧
      s1.events = [.decoded (marshal v) none, .invoked (some v) (fn (some v))] := by
  constructor
  · rw [publish_on_session env p ch _ w hp]
    exact ⟨_, rfl, rfl⟩
  · obtain ⟨lch, hl1⟩ := newListener_success env c topic w0 w1 l hl
    subst hl1
    simp only [receiveLoop, receiveStep, Listener.AssignHandlerFunction, hcodec]
    exact ⟨_, rfl, rfl⟩

theorem round_trip_of_coded_value_witness :
    (∃ msg, (Publisher.Publish openBroker samplePublisher
        ⟨"t1", marshalDeviceUpdate ⟨"h1", "r1", none⟩⟩ sampleWorld).2.trace =
        sampleWorld.trace ++ [.ChannelPublish 1 "" "t1" false false msg] ∧
      msg.Body = marshalDeviceUpdate ⟨"h1", "r1", none⟩) ∧
    ∃ s1, receiveLoop unmarshalDeviceUpdate [⟨marshalDeviceUpdate ⟨"h1", "r1", none⟩⟩]
        ⟨sampleListener.AssignHandlerFunction (some requireHome), World.init, []⟩ =
        .returned s1 ∧
      s1.events = [.decoded (marshalDeviceUpdate ⟨"h1", "r1", none⟩) none,
        .invoked (some ⟨"h1", "r1", none⟩) (requireHome (some ⟨"h1", "r1", none⟩))] :=
  round_trip_of_coded_value openBroker marshalDeviceUpdate unmarshalDeviceUpdate
    ⟨"h1", "r1", none⟩ (by decide) samplePublisher 1 rfl "t1" sampleWorld
    sampleClient "orders" World.init ⟨[.ConnectionChannel 1,
      .QueueDeclare 1 "orders" true false false false], []⟩ sampleListener rfl
    requireHome World.init

/-- C14: on a Listener built by `NewListener`, whatever calls of `ListenAsync`
and `Close` were made, the calls of `ListenAsync` that returned are as many as
the `Close` calls that delivered their signal, so no `ListenAsync` returns
before a `Close` delivered; and while a `ListenAsync` is pending, a `Close`
from another task is allowed to hand its signal over, after which that
`ListenAsync` has returned, without panic, and so has the `Close`. -/
theorem close_releases_pending_listen {B : Type} (env : Amqp) (c : Client) (topic : String)
    (w0 w1 : World) (l : Listener B)
    (hl : NewListener B env c topic w0 = (.returned (some l, none), w1))
    (fn : Option (Option B → Option GoError)) (w : World)
    (acts : List Action) (s : CloserState) (hrun : run acts (CloserState.init l) = some s) :
    s.listenReturned = s.closeReturned ∧
    (0 < s.listenWaiting →
      ∃ s2, run [.close (Listener.Close (l.AssignHandlerFunction fn) w).2.2, .handOff] s =
          some s2 ∧
        s2.listenReturned = s.listenReturned + 1 ∧ s2.listenPanicked = s.listenPanicked ∧
        s2.closeReturned = s.closeReturned + 1 ∧ s2.closeBlocked = s.closeBlocked) := by
  obtain ⟨lch, hl1⟩ := newListener_success env c topic w0 w1 l hl
  have hcap : l.closer.cap = 0 := by rw [hl1]
  obtain ⟨_, hbuf, heq⟩ := reachable_unbuffered l hcap acts s hrun
  refine ⟨heq, fun hwait => ?_⟩
  simp only [run, step, Listener.Close, hbuf, hwait, Nat.succ_pos, and_self, if_true,
    Nat.add_sub_cancel]
  exact ⟨_, rfl, rfl, rfl, rfl, rfl⟩

theorem close_releases_pending_listen_witness :
    ∃ s2, run [.close (Listener.Close
          (sampleListener.AssignHandlerFunction (some requireHome)) World.init).2.2, .handOff]
        ⟨0, 0, 1, 0, 0, 0, 0⟩ = some s2 ∧
      s2.listenReturned = 0 + 1 ∧ s2.listenPanicked = 0 ∧ s2.closeReturned = 0 + 1 ∧
      s2.closeBlocked = 0 :=
  (close_releases_pending_listen openBroker sampleClient "orders" World.init
    ⟨[.ConnectionChannel 1, .QueueDeclare 1 "orders" true false false false], []⟩
    sampleListener rfl (some requireHome) World.init
    [.listenAsync (Listener.ListenAsync openBroker
      (sampleListener.AssignHandlerFunction (some requireHome)) World.init).1]
    ⟨0, 0, 1, 0, 0, 0, 0⟩ rfl).2 (by decide)

/-- C15, refuted as stated: the channel `closer` that `NewListener` makes has
capacity zero, not one; and on a channel of capacity one a `Close` would
return with no `ListenAsync` in progress. -/
theorem closer_capacity_is_zero :
    (NewListener DeviceUpdate openBroker sampleClient "orders" World.init).1 =
      .returned (some sampleListener, none) ∧
    sampleListener.closer.cap = 0 ∧ sampleListener.closer.cap ≠ 1 ∧
    run [.close (.send ⟨1⟩), .bufferSend] ⟨1, 0, 0, 0, 0, 0, 0⟩ =
      some ⟨1, 1, 0, 0, 0, 0, 1⟩ :=
  ⟨rfl, rfl, by decide, by decide⟩

/-- C15, amended: the channel `closer` of a Listener built by `NewListener` is
unbuffered (capacity zero) and so synchronous: a `Close` returns only together
with a `ListenAsync` that receives its signal, and while no `ListenAsync` is
waiting no rule lets a blocked `Close` return. -/
theorem close_blocks_until_received {B : Type} (env : Amqp) (c : Client) (topic : String)
    (w0 w1 : World) (l : Listener B)
    (hl : NewListener B env c topic w0 = (.returned (some l, none), w1))
    (acts : List Action) (s : CloserState) (hrun : run acts (CloserState.init l) = some s) :
    l.closer.cap = 0 ∧ s.closeReturned = s.listenReturned ∧
    step .bufferSend s = none ∧
    (s.listenWaiting = 0 → step .handOff s = none) := by
  obtain ⟨lch, hl1⟩ := newListener_success env c topic w0 w1 l hl
  have hcap : l.closer.cap = 0 := by rw [hl1]
  obtain ⟨hc, hbuf, heq⟩ := reachable_unbuffered l hcap acts s hrun
  refine ⟨hcap, heq.symm, ?_, fun hw => ?_⟩
  · simp [step, hc, hbuf]
  · simp [step, hw]

theorem close_blocks_until_received_witness :
    sampleListener.closer.cap = 0 ∧
    (⟨0, 0, 0, 0, 0, 1, 0⟩ : CloserState).closeReturned =
      (⟨0, 0, 0, 0, 0, 1, 0⟩ : CloserState).listenReturned ∧
    step .bufferSend ⟨0, 0, 0, 0, 0, 1, 0⟩ = none ∧
    ((⟨0, 0, 0, 0, 0, 1, 0⟩ : CloserState).listenWaiting = 0 →
      step .handOff ⟨0, 0, 0, 0, 0, 1, 0⟩ = none) :=
  close_blocks_until_received openBroker sampleClient "orders" World.init
    ⟨[.ConnectionChannel 1, .QueueDeclare 1 "orders" true false false false], []⟩
    sampleListener rfl [.close (Listener.Close sampleListener World.init).2.2]
    ⟨0, 0, 0, 0, 0, 1, 0⟩ rfl

/-- C16: `Close` on a Listener makes no library call, writes no log entry and
leaves the Listener as it is (session, topic, handler, decode target); its one
operation is the send on `closer`.  With a handler registered, the messages
that arrive after `Close` are each decoded and passed to the handler as
before. -/
theorem listener_close_only_signals {B : Type} (l : Listener B) (w : World)
    (unmarshal : List Nat → Option B → Option GoError × Option B)
    (fn : Option B → Option GoError) (msgs : List Delivery) (s : LoopState B)
    (h : s.l.actionFn = some fn) :
    Listener.Close l w = (l, w, .send l.closer) ∧
    ∃ s1 new, receiveLoop unmarshal msgs
        { s with l := (Listener.Close s.l s.w).1, w := (Listener.Close s.l s.w).2.1 } =
        .returned s1 ∧
      s1.events = s.events ++ new ∧
      new.map LoopEvent.shape = msgs.flatMap (fun m => [some m.Body, none]) ∧
      s1.w.trace = s.w.trace ∧ s1.l.ch = s.l.ch ∧ s1.l.topic = s.l.topic ∧
      s1.l.actionFn = s.l.actionFn := by
  refine ⟨rfl, ?_⟩
  obtain ⟨s1, new, hloop, hev, hshape, _, htr, hfn, hch, htopic, _⟩ :=
    receiveLoop_spec unmarshal fn msgs s h
  exact ⟨s1, new, hloop, hev, hshape, htr, hch, htopic, hfn⟩

theorem listener_close_only_signals_witness :
    Listener.Close sampleLoop.l sampleLoop.w =
      (sampleLoop.l, sampleLoop.w, .send sampleLoop.l.closer) ∧
    ∃ s1 new, receiveLoop unmarshalDeviceUpdate sampleDeliveries
        { sampleLoop with l := (Listener.Close sampleLoop.l sampleLoop.w).1,
                          w := (Listener.Close sampleLoop.l sampleLoop.w).2.1 } =
        .returned s1 ∧
      s1.events = sampleLoop.events ++ new ∧
      new.map LoopEvent.shape = sampleDeliveries.flatMap (fun m => [some m.Body, none]) ∧
      s1.w.trace = sampleLoop.w.trace ∧ s1.l.ch = sampleLoop.l.ch ∧
      s1.l.topic = sampleLoop.l.topic ∧ s1.l.actionFn = sampleLoop.l.actionFn :=
  listener_close_only_signals sampleLoop.l sampleLoop.w unmarshalDeviceUpdate requireHome
    sampleDeliveries sampleLoop rfl

/-- C17: on a Listener with a session, `ListenAsync` makes one library call,
`Consume` on the Listener's topic with an empty consumer tag, auto-ack true
and exclusive, no-local, no-wait false.  The receive loop makes no library
call at all, whatever decoding and the handler return: no message is
acknowledged, rejected or requeued; with a handler registered each message is
decoded once and passed to the handler once. -/
theorem listen_consumes_auto_ack {B : Type} (env : Amqp) (l : Listener B) (ch : Nat)
    (w : World) (hch : l.ch = some ch)
    (unmarshal : List Nat → Option B → Option GoError × Option B)
    (msgs : List Delivery) (s : LoopState B) :
    (Listener.ListenAsync env l w).2.trace =
      w.trace ++ [.Consume ch l.topic "" true false false false] ∧
    (∀ s1, receiveLoop unmarshal msgs s = .returned s1 → s1.w.trace = s.w.trace) ∧
    (∀ fn, s.l.actionFn = some fn →
      ∃ s1 new, receiveLoop unmarshal msgs s = .returned s1 ∧
        s1.events = s.events ++ new ∧
        new.map LoopEvent.shape = msgs.flatMap (fun m => [some m.Body, none]) ∧
        s1.w.trace = s.w.trace) := by
  refine ⟨?_, fun s1 h => receiveLoop_trace unmarshal msgs s s1 h, fun fn h => ?_⟩
  · simp only [Listener.ListenAsync, hch]
    cases env.Consume w.trace ch l.topic "" true false false false <;> rfl
  · obtain ⟨s1, new, hloop, hev, hshape, _, htr, _⟩ := receiveLoop_spec unmarshal fn msgs s h
    exact ⟨s1, new, hloop, hev, hshape, htr⟩

theorem listen_consumes_auto_ack_witness :
    (Listener.ListenAsync openBroker sampleLoop.l World.init).2.trace =
      World.init.trace ++ [.Consume 1 sampleLoop.l.topic "" true false false false] ∧
    ∃ s1 new, receiveLoop unmarshalDeviceUpdate sampleDeliveries sampleLoop = .returned s1 ∧
      s1.events = sampleLoop.events ++ new ∧
      new.map LoopEvent.shape = sampleDeliveries.flatMap (fun m => [some m.Body, none]) ∧
      s1.w.trace = sampleLoop.w.trace :=
  ⟨(listen_consumes_auto_ack openBroker sampleLoop.l 1 World.init rfl unmarshalDeviceUpdate
      sampleDeliveries sampleLoop).1,
   (listen_consumes_auto_ack openBroker sampleLoop.l 1 World.init rfl unmarshalDeviceUpdate
      sampleDeliveries sampleLoop).2.2 requireHome rfl⟩

theorem confirmLoop_log (cs : List Confirmation) (w : World) :
    (confirmLoop cs w).log = w.log ++ cs.map confirmEntry := by
  induction cs generalizing w with
  | nil => simp [confirmLoop]
  | cons confirm rest ih =>
    simp only [confirmLoop]
    split
    · rename_i hack
      rw [ih]
      simp only [loggerInfo, List.map_cons, confirmEntry, hack, if_true, List.append_assoc,
        List.singleton_append]
      rfl
    · rename_i hack
      rw [ih]
      simp only [loggerError, List.map_cons, confirmEntry, hack, List.append_assoc,
        List.singleton_append]
      rfl

/-- C18: for every finite sequence of confirmations the background task of a
Publisher writes exactly one log entry per confirmation, in the order
received, an informational entry for an ack and an error entry for a nack;
it makes no library call, and a `Publish` returns the same value whether or
not the task has run. -/
theorem confirm_task_logs_each (cs : List Confirmation) (w : World) :
    (confirmLoop cs w).log = w.log ++ cs.map confirmEntry ∧
    (∀ confirm, confirmEntry confirm =
      if confirm.Ack then .info "Message published successfully"
      else .error "\n failed to publish message") ∧
    (confirmLoop cs w).trace = w.trace ∧
    (∀ env p t, (Publisher.Publish env p t (confirmLoop cs w)).1 =
      (Publisher.Publish env p t w).1) := by
  refine ⟨confirmLoop_log cs w, fun _ => rfl, confirmLoop_trace cs w, fun env p t => ?_⟩
  simp only [Publisher.Publish, confirmLoop_trace]
  cases p.ch <;> rfl

/-- C19: the loop decodes every message into the field `body` of the
Listener.  For two consecutive messages of which the first leaves a value `x`
in the target and the second has a body that omits a field (decoding it into
a target keeps that field), the handler is called for the second message with
the result of decoding into that same target, and the field still has the
value it had in `x`. -/
theorem decode_target_shared {B F : Type}
    (unmarshal : List Nat → Option B → Option GoError × Option B)
    (fn : Option B → Option GoError) (field : B → F) (m1 m2 : Delivery) (s : LoopState B)
    (h : s.l.actionFn = some fn) (x : B)
    (h1 : (unmarshal m1.Body s.l.body).2 = some x)
    (h2 : ∀ y, ∃ z, (unmarshal m2.Body (some y)).2 = some z ∧ field z = field y) :
    ∃ s1 z e1 e2 e3 e4, receiveLoop unmarshal [m1, m2] s = .returned s1 ∧
      s1.events = s.events ++ [.decoded m1.Body e1, .invoked (some x) e2,
        .decoded m2.Body e3, .invoked (some z) e4] ∧
      (unmarshal m2.Body (some x)).2 = some z ∧ field z = field x ∧ s1.l.body = some z := by
  obtain ⟨z, hz, hfield⟩ := h2 x
  obtain ⟨sa, hstep1, hev1, _, _, hl1⟩ := receiveStep_spec unmarshal fn m1 s h
  have ha : sa.l.actionFn = some fn := by rw [hl1]; exact h
  have hbody : sa.l.body = some x := by rw [hl1]; exact h1
  obtain ⟨sb, hstep2, hev2, _, _, hl2⟩ := receiveStep_spec unmarshal fn m2 sa ha
  refine ⟨sb, z, (unmarshal m1.Body s.l.body).1, fn (some x),
    (unmarshal m2.Body (some x)).1, fn (some z), ?_, ?_, hz, hfield, ?_⟩
  · simp only [receiveLoop, hstep1, hstep2]
  · rw [hev2, hev1, hbody, hz, h1]
    simp
  · rw [hl2, hbody, hz]

theorem decode_target_shared_witness :
    ∃ s1 z e1 e2 e3 e4, receiveLoop unmarshalDeviceUpdate
        [⟨marshalDeviceUpdate ⟨"h1", "r1", none⟩⟩, ⟨asciiBytes "\x7b\"room_id\":\"r2\"\x7d"⟩]
        sampleLoop = .returned s1 ∧
      s1.events = sampleLoop.events ++
        [.decoded (marshalDeviceUpdate ⟨"h1", "r1", none⟩) e1,
         .invoked (some ⟨"h1", "r1", none⟩) e2,
         .decoded (asciiBytes "\x7b\"room_id\":\"r2\"\x7d") e3, .invoked (some z) e4] ∧
      (unmarshalDeviceUpdate (asciiBytes "\x7b\"room_id\":\"r2\"\x7d")
        (some ⟨"h1", "r1", none⟩)).2 = some z ∧
      DeviceUpdate.HomeID z = DeviceUpdate.HomeID ⟨"h1", "r1", none⟩ ∧
      s1.l.body = some z :=
  decode_target_shared unmarshalDeviceUpdate requireHome DeviceUpdate.HomeID
    ⟨marshalDeviceUpdate ⟨"h1", "r1", none⟩⟩ ⟨asciiBytes "\x7b\"room_id\":\"r2\"\x7d"⟩
    sampleLoop rfl ⟨"h1", "r1", none⟩ (by decide)
    (fun y => ⟨{ y with RoomID := "r2" }, rfl, rfl⟩)

end Rabbit

/-! # Request handler -/

namespace HttpServer

open ApiErrors

/-- C20, the code at the failing input: a handler that returns the package
variable `ErrNotFound` or `ErrForbidden`, or any other `*api_errors.Error`, is
answered with status 500 and the message `something went wrong`, also when the
pointer is wrapped; only an error whose dynamic type is the value type
`api_errors.Error` is answered with its own status code and message. -/
theorem api_error_pointer_answered_500 :
    Build (failingBuilder (.apiErrorPointer ErrNotFound)) plainRequest =
      .response 500 ⟨.null, false, "something went wrong", 3, "api.local"⟩ ∧
    Build (failingBuilder (.apiErrorPointer ErrForbidden)) plainRequest =
      .response 500 ⟨.null, false, "something went wrong", 3, "api.local"⟩ ∧
    (∀ e, Build (failingBuilder (.apiErrorPointer e)) plainRequest =
      .response 500 ⟨.null, false, "something went wrong", 3, "api.local"⟩) ∧
    (∀ e text, Build (failingBuilder (.wrapError text (.apiErrorPointer e))) plainRequest =
      .response 500 ⟨.null, false, "something went wrong", 3, "api.local"⟩) ∧
    Build (failingBuilder (.apiErrorValue ErrNotFound)) plainRequest =
      .response 404 ⟨.null, false, "not found", 3, "api.local"⟩ :=
  ⟨rfl, rfl, fun _ => rfl, fun _ _ => rfl, rfl⟩

end HttpServer

/-! # EC2 builder -/

namespace Aws

/-- C28, the code at the failing input: `NewInstance` leaves `data` nil, so
`AddAMI` with the non-empty image id `ami-0abc` panics with a nil-pointer
dereference instead of returning the builder, and so does `AddAMI` on a new
builder for every image id: the empty one panics with the custom error, every
other one with the nil dereference. -/
theorem addAMI_on_new_instance_panics :
    (EC2.NewInstance ⟨false, 1⟩).AddAMI "ami-0abc" = .error .nilDereference ∧
    (EC2.NewInstance ⟨false, 1⟩).AddAMI "" =
      .error (.error 404 "image id cannot be empty") ∧
    (∀ s imageId, ∃ v, (EC2.NewInstance s).AddAMI imageId = .error v) := by
  refine ⟨rfl, rfl, fun s imageId => ?_⟩
  by_cases h : imageId = ""
  · exact ⟨.error 404 "image id cannot be empty", by simp [EC2Builder.AddAMI, h]⟩
  · exact ⟨.nilDereference, by simp [EC2Builder.AddAMI, EC2.NewInstance, h]⟩

end Aws

/-! # In-flight limit -/

namespace Grpc

/-- C27, the code at the failing input: with `maxMessages = 1` and no call in
flight, a call of user `u` whose handler fails returns the handler's error and
leaves the counter of `u` at 1; the next call of `u`, alone in flight, is then
rejected with `Max inflight messages reached` and leaves the counter at 2. -/
theorem counter_left_raised_after_failure :
    (unaryServerInterceptor 1 failingCall noCounts).1 = .error "boom" ∧
    (unaryServerInterceptor 1 failingCall noCounts).2 "u" = 1 ∧
    (unaryServerInterceptor 1 goodCall (unaryServerInterceptor 1 failingCall noCounts).2).1 =
      .error "Max inflight messages reached" ∧
    (unaryServerInterceptor 1 goodCall (unaryServerInterceptor 1 failingCall noCounts).2).2 "u" =
      2 ∧
    (unaryServerInterceptor 1 goodCall noCounts).1 = .response 7 ∧
    (unaryServerInterceptor 1 goodCall noCounts).2 "u" = 0 := by
  decide

end Grpc

/-! # Unix timestamps -/

namespace Datatypes

/-- C24, the code at the failing inputs: `UnixTimestampNanos` of the instant
1700000000 s stores 1700000000000000000 and scans it back as the instant
1700000000000000 s; `UnixTimestampMillis` of the instant 1.5 s stores 1500 and
scans it back as the instant 1 s, while the instant truncated to milliseconds
is 1.5 s. -/
theorem scan_does_not_invert_value :
    UnixTimestampNanos.Value ⟨1700000000, 0⟩ = some 1700000000000000000 ∧
    UnixTimestampNanos.Scan ⟨0, 0⟩ (UnixTimestampNanos.Value ⟨1700000000, 0⟩) =
      ⟨1700000000000000, 0⟩ ∧
    UnixTimestampMillis.Value ⟨1, 500000000⟩ = some 1500 ∧
    UnixTimestampMillis.Scan ⟨0, 0⟩ (UnixTimestampMillis.Value ⟨1, 500000000⟩) = ⟨1, 0⟩ ∧
    Time.truncateMillis ⟨1, 500000000⟩ = ⟨1, 500000000⟩ := by
  decide

end Datatypes

/-! # Bounded wait group -/

namespace Boundedwg

theorem step_consistent (a : Step) (s s1 : Sys) (h : step a s = some s1)
    (hc : s.Consistent) : s1.Consistent ∧ s1.b.limit = s.b.limit := by
  obtain ⟨h1, h2, h3⟩ := hc
  cases a with
  | addSend =>
    simp only [step] at h
    split at h
    · rename_i hg
      simp only [Option.some.injEq] at h; subst h
      refine ⟨⟨?_, ?_, h3⟩, rfl⟩
      · show s.b.held + 1 ≤ s.b.limit
        omega
      · show s.addsDone + (s.addsMid + 1) = s.b.held + 1 + s.donesDone + s.donesMid
        omega
    · simp at h
  | addFinish =>
    simp only [step, wgAdd] at h
    split at h
    · rename_i hg
      split at h
      · rename_i b1 hb
        split at hb
        · simp at hb
        · simp only [CallResult.returned.injEq] at hb
          simp only [Option.some.injEq] at h; subst h; subst hb
          refine ⟨⟨h1, ?_, ?_⟩, rfl⟩
          · show s.addsDone + 1 + (s.addsMid - 1) = s.b.held + s.donesDone + s.donesMid
            omega
          · show s.b.counter + 1 = ((s.addsDone + 1 : Nat) : Int) - (s.donesDone : Int)
            omega
      · simp only [Option.some.injEq] at h; subst h
        exact ⟨⟨h1, h2, h3⟩, rfl⟩
    · simp at h
  | doneReceive =>
    simp only [step] at h
    split at h
    · rename_i hg
      simp only [Option.some.injEq] at h; subst h
      refine ⟨⟨?_, ?_, h3⟩, rfl⟩
      · show s.b.held - 1 ≤ s.b.limit
        omega
      · show s.addsDone + s.addsMid = s.b.held - 1 + s.donesDone + (s.donesMid + 1)
        omega
    · simp at h
  | doneFinish =>
    simp only [step, wgAdd] at h
    split at h
    · rename_i hg
      split at h
      · rename_i b1 hb
        split at hb
        · simp at hb
        · simp only [CallResult.returned.injEq] at hb
          simp only [Option.some.injEq] at h; subst h; subst hb
          refine ⟨⟨h1, ?_, ?_⟩, rfl⟩
          · show s.addsDone + s.addsMid = s.b.held + (s.donesDone + 1) + (s.donesMid - 1)
            omega
          · show s.b.counter + -1 = (s.addsDone : Int) - ((s.donesDone + 1 : Nat) : Int)
            omega
      · simp only [Option.some.injEq] at h; subst h
        exact ⟨⟨h1, h2, h3⟩, rfl⟩
    · simp at h

theorem run_consistent (steps : List Step) (s s1 : Sys) (h : run steps s = some s1)
    (hc : s.Consistent) : s1.Consistent ∧ s1.b.limit = s.b.limit := by
  induction steps generalizing s with
  | nil =>
    simp only [run, Option.some.injEq] at h
    subst h
    exact ⟨hc, rfl⟩
  | cons a rest ih =>
    simp only [run] at h
    cases hs : step a s with
    | none => simp [hs] at h
    | some s2 =>
      simp only [hs] at h
      obtain ⟨hc2, hl2⟩ := step_consistent a s s2 hs hc
      obtain ⟨hc3, hl3⟩ := ih s2 h hc2
      exact ⟨hc3, by rw [hl3, hl2]⟩

/-- C22, refuted as stated: with limit 1, after one `Add(1)` has returned, a
`Done` has released its slot and not yet reached `wg.Done`, and a second
`Add(1)` has returned, two `Add(1)` calls and no `Done` call are complete,
and the wait-group counter is 2 while one slot is held. -/
theorem completed_adds_can_exceed_limit :
    New 1 = .ok ⟨1, 0, 0⟩ ∧
    run [.addSend, .addFinish, .doneReceive, .addSend, .addFinish] (Sys.init ⟨1, 0, 0⟩) =
      some ⟨⟨1, 1, 2⟩, 0, 1, 2, 0, false⟩ ∧
    ¬ ((2 : Int) - 0 ≤ 1) :=
  ⟨rfl, by decide, by decide⟩

/-- C22, amended: for a wait group made by `New(limit)` and every interleaving
of the statements of `Add(1)` and `Done` calls, the slots held never exceed
the limit; the completed `Add(1)` calls never exceed the limit plus the `Done`
calls that have released their slot; while `limit` slots are held no `Add(1)`
can pass its send; the counter is the completed `Add(1)` calls minus the
completed `Done` calls, and whenever no call stands between its two
statements it equals the slots held and is within the limit. -/
theorem slots_bound_running_calls (limit : Int) (b : BoundedWaitGroup)
    (hnew : New limit = .ok b) (steps : List Step) (s : Sys)
    (hrun : run steps (Sys.init b) = some s) :
    (s.b.limit : Int) = limit ∧ s.b.held ≤ s.b.limit ∧
    s.addsDone ≤ s.b.limit + (s.donesDone + s.donesMid) ∧
    (s.b.held = s.b.limit → step .addSend s = none) ∧
    s.b.counter = (s.addsDone : Int) - (s.donesDone : Int) ∧
    (s.addsMid = 0 → s.donesMid = 0 →
      s.b.counter = (s.b.held : Int) ∧ (s.addsDone : Int) - (s.donesDone : Int) ≤ limit) := by
  have hb : 0 < limit ∧ b = ⟨limit.toNat, 0, 0⟩ := by
    simp only [New] at hnew
    split at hnew
    · simp at hnew
    · rename_i hl
      simp only [Except.ok.injEq] at hnew
      exact ⟨by omega, hnew.symm⟩
  obtain ⟨hpos, hb⟩ := hb
  subst hb
  have hinit : (Sys.init ⟨limit.toNat, 0, 0⟩).Consistent := by
    refine ⟨Nat.zero_le _, rfl, rfl⟩
  obtain ⟨⟨h1, h2, h3⟩, hl⟩ := run_consistent steps _ s hrun hinit
  have hlim : (s.b.limit : Int) = limit := by
    rw [hl]
    show ((limit.toNat : Nat) : Int) = limit
    omega
  refine ⟨hlim, h1, by omega, fun hfull => ?_, h3, fun ha hd => ?_⟩
  · simp [step, hfull]
  · constructor <;> omega

theorem slots_bound_running_calls_witness :
    ((⟨⟨1, 1, 2⟩, 0, 1, 2, 0, false⟩ : Sys).b.limit : Int) = 1 ∧
    (⟨⟨1, 1, 2⟩, 0, 1, 2, 0, false⟩ : Sys).b.held ≤ 1 ∧
    (⟨⟨1, 1, 2⟩, 0, 1, 2, 0, false⟩ : Sys).addsDone ≤ 1 + (0 + 1) ∧
    step .addSend ⟨⟨1, 1, 2⟩, 0, 1, 2, 0, false⟩ = none :=
  have h := slots_bound_running_calls 1 ⟨1, 0, 0⟩ rfl
    [.addSend, .addFinish, .doneReceive, .addSend, .addFinish]
    ⟨⟨1, 1, 2⟩, 0, 1, 2, 0, false⟩ (by decide)
  ⟨h.1, h.2.1, h.2.2.1, h.2.2.2.1 rfl⟩

/-- C23, the code at the failing input: on the wait group made by `New(2)`
after `Add(1)`, the call `Add(-1)` returns without panic; it lowers the
counter to 0 and leaves the slot held.  `Add` with a negative delta panics
only when the counter would go below zero. -/
theorem add_negative_returns :
    New 2 = .ok ⟨2, 0, 0⟩ ∧
    Add 1 ⟨2, 0, 0⟩ = .returned ⟨2, 1, 1⟩ ∧
    Add (-1) ⟨2, 1, 1⟩ = .returned ⟨2, 1, 0⟩ ∧
    Add (-1) ⟨2, 0, 0⟩ = .panicked "sync: negative WaitGroup counter" :=
  ⟨rfl, by decide, by decide, by decide⟩

end Boundedwg

/-! # Access levels -/

namespace Common

open ApiErrors

theorem asMapStringBool_ofJSON (j : JSON) : asMapStringBool (some (ofJSON j)) = none := by
  cases j <;> rfl

theorem asMapStringBool_claim (claims : List (String × JSON)) (name : String) :
    asMapStringBool (claim claims name) = none := by
  unfold claim
  cases claims.reverse.lookup name with
  | none => rfl
  | some j => exact asMapStringBool_ofJSON j

/-- C21, the code at the failing input: with a wrong `X-Api-Key` and a valid
bearer token signed with the user secret whose claims are
`access: {search: true}`, `CheckAccess` for `AccessLevelSearch` returns the
unauthorized error.  The claim `access` of a parsed token is never a
`map[string]bool`, so for every token `checkUserAndAdminAccess` refuses the
search level. -/
theorem search_token_refused :
    parseClaims sampleEnv sampleSecrets "tok" AccessLevelSearch =
      some [("access", .object [("search", .bool true)])] ∧
    CheckAccess sampleEnv sampleSecrets searchHeaders AccessLevelSearch =
      .returned none none (some ErrUnauthorized) ∧
    (∀ j, asMapStringBool (some (ofJSON j)) = none) ∧
    (∀ env cfg tokenStr, checkUserAndAdminAccess env cfg tokenStr AccessLevelSearch =
      .returned none none (some ErrUnauthorized)) := by
  refine ⟨rfl, rfl, asMapStringBool_ofJSON, fun env cfg tokenStr => ?_⟩
  unfold checkUserAndAdminAccess
  cases parseClaims env cfg tokenStr AccessLevelSearch with
  | none => rfl
  | some claims =>
    simp only [if_true, asMapStringBool_claim]

end Common

/-! # Text-search queries -/

namespace Common

theorem replaceRuns_nil_repl (cls : Char → Bool) (b : Bool) (s : List Char) :
    replaceRuns cls [] b s = s.filter (fun c => !cls c) := by
  induction s generalizing b with
  | nil => rfl
  | cons c rest ih =>
    simp only [replaceRuns]
    by_cases h : cls c = true
    · simp [h, ih]
    · simp [h, ih]

theorem alnumSpace_facts (c : Char) (h : isAlnumSpace c = true) :
    c ≠ '|' ∧ (isWhite c = true ↔ c = ' ') := by
  constructor
  · rintro rfl
    revert h
    decide
  · constructor
    · intro hw
      simp only [isWhite, Bool.or_eq_true, decide_eq_true_eq] at hw
      rcases hw with (((rfl | rfl) | h12) | rfl) | rfl
      · revert h; decide
      · revert h; decide
      · simp only [isAlnumSpace, Bool.or_eq_true, Bool.and_eq_true, decide_eq_true_eq] at h
        rcases h with ((h | h) | h) | h
        · omega
        · omega
        · omega
        · subst h; revert h12; decide
      · revert h; decide
      · rfl
    · rintro rfl
      decide

theorem split_replaced_white (s : List Char) (hall : ∀ c ∈ s, isAlnumSpace c = true)
    (b : Bool) (cur : List Char) (hb : b = true → cur = []) :
    (split '|' (replaceRuns isWhite ['|'] b s) cur).filter (fun w => w ≠ []) =
      (split ' ' s cur).filter (fun w => w ≠ []) := by
  induction s generalizing b cur with
  | nil => simp [replaceRuns, split]
  | cons c rest ih =>
    have hc := alnumSpace_facts c (hall c (List.mem_cons_self _ _))
    have hrest : ∀ d ∈ rest, isAlnumSpace d = true := fun d hd => hall d (List.mem_cons_of_mem _ hd)
    by_cases hw : isWhite c = true
    · have hsp : c = ' ' := hc.2.1 hw
      subst hsp
      cases b with
      | true =>
        have hcur : cur = [] := hb rfl
        subst hcur
        simp only [replaceRuns, hw, if_true, List.nil_append, split]
        rw [ih hrest true [] (fun _ => rfl)]
        simp
      | false =>
        simp only [replaceRuns, hw, if_true, split, List.cons_append, List.nil_append]
        simp only [Bool.false_eq_true, if_false, List.filter_cons]
        have hnil : ([] : List Char).append (replaceRuns isWhite ['|'] true rest) =
            replaceRuns isWhite ['|'] true rest := rfl
        rw [hnil, ih hrest true [] (fun _ => rfl)]
    · have hne : c ≠ ' ' := fun h => hw (hc.2.2 h)
      simp only [replaceRuns, hw, split, hc.1, hne, if_false, Bool.false_eq_true]
      exact ih hrest false (cur ++ [c]) (fun h => by simp at h)


theorem intercalate_cons_flatMap (sep w : List Char) (fs : List (List Char)) :
    List.intercalate sep (w :: fs) = w ++ fs.flatMap (fun x => sep ++ x) := by
  induction fs generalizing w with
  | nil => simp [List.intercalate, List.intersperse]
  | cons f rest ih =>
    have h := ih f
    simp only [List.intercalate] at h ⊢
    simp only [List.intersperse, List.flatten_cons, List.flatMap_cons]
    rw [h]
    simp

theorem joinLoop_started (ws : List (List Char)) (builder : List Char) (n : Nat) (hn : n ≠ 0) :
    joinLoop ws builder n =
      builder ++ (ws.filter (fun w => w ≠ [])).flatMap (fun w => ['|'] ++ w) := by
  induction ws generalizing builder n with
  | nil => simp [joinLoop]
  | cons w rest ih =>
    by_cases hw : w = []
    · subst hw
      simp [joinLoop, ih builder n hn]
    · have hlen : w.length ≠ 0 := fun h => hw (List.length_eq_zero.mp h)
      simp only [joinLoop, hlen, if_false, hn, ne_eq, not_false_eq_true, if_true]
      rw [ih _ (n + 1) (Nat.succ_ne_zero n)]
      simp [hw]

theorem joinLoop_fresh (ws : List (List Char)) :
    joinLoop ws [] 0 = List.intercalate ['|'] (ws.filter (fun w => w ≠ [])) := by
  induction ws with
  | nil => rfl
  | cons w rest ih =>
    by_cases hw : w = []
    · subst hw
      simp [joinLoop, ih]
    · have hlen : w.length ≠ 0 := fun h => hw (List.length_eq_zero.mp h)
      simp only [joinLoop, hlen, if_false, ne_eq, not_true_eq_false, List.append_nil,
        List.nil_append, Nat.zero_add]
      rw [joinLoop_started rest w 1 (by decide)]
      simp [hw, intercalate_cons_flatMap]

/-- C25: for every query string, `ToTsQuery` gives what the documented steps
give: the query lower-cased, every character other than an ASCII letter, digit
or space deleted, the rest split on spaces, and the non-empty words joined
with `|`; the empty query is returned unchanged. -/
theorem toTsQuery_eq_words (lower : Char → Char) (query : String) :
    ToTsQuery lower query = tsQueryByWords lower query := by
  unfold ToTsQuery tsQueryByWords
  by_cases hq : query = ""
  · subst hq
    rfl
  · have hlen : query.length ≠ 0 := by
      intro h
      apply hq
      apply String.ext
      exact List.length_eq_zero.mp h
    simp only [hlen, hq, if_false]
    rw [replaceRuns_nil_repl]
    have hfilter : List.filter (fun c => !(fun c => !isAlnumSpace c) c) (List.map lower query.data) =
        List.filter isAlnumSpace (List.map lower query.data) := by
      congr 1
      funext c
      simp
    rw [hfilter, joinLoop_fresh,
      split_replaced_white _ (fun c hc => (List.mem_filter.mp hc).2) false [] (fun h => by simp at h)]

end Common

/-! # Pagination -/

namespace HttpServer

/-- C26, the code at the failing input: for `per_page = -1` the handler is
given `Limit = 0`; when it returns no items (as on an empty table) the count
equals the limit, `has_next` is taken to be true and the slice up to index
`-1` panics, so no response is written.  For `page = 3`, `per_page = 2` the
handler is given `Limit = 3` and `Offset = 4` and the response carries two of
the three items with `has_next` true. -/
theorem paginated_empty_result_panics :
    Build (pagedBuilder 0) { plainRequest with page := 1, perPage := -1 } =
      .panic "reflect.Value.Slice: slice index out of bounds" ∧
    Build (pagedBuilder 100) { plainRequest with page := 1, perPage := -1 } =
      .panic "reflect.Value.Slice: slice index out of bounds" ∧
    Build (pagedBuilder 100) { plainRequest with page := 3, perPage := 2 } =
      .response 200 ⟨.slice [4, 5], true, "ok", 3, "api.local"⟩ ∧
    Build (pagedBuilder 5) { plainRequest with page := 1, perPage := 10 } =
      .response 200 ⟨.slice [0, 1, 2, 3, 4], false, "ok", 3, "api.local"⟩ := by
  decide

end HttpServer
